import Mathlib

/-!
# Verification of the pdf-qa-llm-router core pipeline

A shallow embedding, in Lean 4, of the core components of the
`pdf-qa-llm-router` repository:

* `src/pdf/processor.py` — section computation (`get_pdf_metadata`,
  `get_all_sections`);
* `src/agent/graph.py` — the page fetch tool (`PageFetcherTool.fetch_pages`),
  the router page extraction (`router_node`), the error-correction node
  (`error_correction_node`, `parse_page_list`), the orchestrator guard
  (`should_correct`), the answer generator (`answer_generator_node`) and the
  summary cache (`_load_summaries_from_cache`, `index_pdf`);
* `src/llm/client.py` — the retry/backoff loop
  (`_make_request_with_retry`, `generate_text_async`);
* `src/llm/schemas.py` — the layered response parser (`safe_parse_json`).

External collaborators (the PDF text/image extraction library, the HTTP
transport, the model itself) are passed in as explicit oracle functions.
Python's `re` searches used by the source are hand-compiled to deterministic
character-list scanners for the five concrete patterns the code uses, and
Python's `json.loads` is modelled by a fuel-based JSON parser.
-/

namespace PDFQA

/-! ## Python string primitives

Helpers mirroring the Python string operations the source relies on:
`str.lower`, `str.strip`, `str.isdigit`, `int(...)` on digit strings,
`range(a, b)`, and the character class `\s` of the `re` module.
-/

/-- Python's `\s` class (ASCII part): space, tab, newline, carriage return,
vertical tab, form feed. -/
def isPySpace (c : Char) : Bool :=
  c = ' ' || c = '\t' || c = '\n' || c = '\r' || c = Char.ofNat 11 || c = Char.ofNat 12

/-- `str.strip()` on a character list: drop whitespace from both ends. -/
def pyStrip (cs : List Char) : List Char :=
  ((cs.dropWhile isPySpace).reverse.dropWhile isPySpace).reverse

/-- `str.lower()` (ASCII). -/
def pyLower (cs : List Char) : List Char :=
  cs.map Char.toLower

/-- `int(...)` on a string of decimal digits. -/
def digitsToNat (cs : List Char) : Nat :=
  cs.foldl (fun n c => 10 * n + (c.toNat - 48)) 0

/-- Python's `list(range(a, b))`: the list `[a, a+1, ..., b-1]`, empty when
`b ≤ a`. -/
def pyRange (a b : Nat) : List Nat :=
  List.range' a (b - a)

/-! ## Section computation — `src/pdf/processor.py`

`get_pdf_metadata` computes
`total_sections = (total_pages + chunk_size - 1) // chunk_size` and
`get_all_sections` lists, for `i in range(total_sections)`, the 1-indexed
range `[i * chunk_size + 1, min((i + 1) * chunk_size, total_pages)]`.
-/

/-- `total_sections = (total_pages + self.chunk_size - 1) // self.chunk_size`
from `PDFProcessor.get_pdf_metadata`. -/
def totalSections (chunk_size total_pages : Nat) : Nat :=
  (total_pages + chunk_size - 1) / chunk_size

/-- One entry of the list built by `PDFProcessor.get_all_sections`:
`section_id = i + 1`, `page_range = [start_page, end_page]` (the
`page_count` field is derived and omitted). -/
structure PdfSection where
  section_id : Nat
  page_start : Nat
  page_end : Nat
deriving Repr, DecidableEq

/-- `PDFProcessor.get_all_sections`: for `i in range(total_sections)`,
`start_page = i * chunk_size + 1` and
`end_page = min((i + 1) * chunk_size, total_pages)`. -/
def get_all_sections (chunk_size total_pages : Nat) : List PdfSection :=
  (List.range (totalSections chunk_size total_pages)).map fun i =>
    { section_id := i + 1
      page_start := i * chunk_size + 1
      page_end := min ((i + 1) * chunk_size) total_pages }

theorem totalSections_pos_eq {cs tp : Nat} (hcs : 0 < cs) (htp : 0 < tp) :
    totalSections cs tp = (tp - 1) / cs + 1 := by
  unfold totalSections
  have h : tp + cs - 1 = (tp - 1) + cs := by omega
  rw [h, Nat.add_div_right _ hcs]

theorem totalSections_zero {cs : Nat} (hcs : 0 < cs) : totalSections cs 0 = 0 := by
  unfold totalSections
  exact Nat.div_eq_of_lt (by omega)

/-- Every section index starts strictly inside the document. -/
theorem mul_lt_of_lt_totalSections {cs tp i : Nat} (hcs : 0 < cs)
    (h : i < totalSections cs tp) : i * cs < tp := by
  rcases Nat.eq_zero_or_pos tp with h0 | h0
  · subst h0; rw [totalSections_zero hcs] at h; omega
  · rw [totalSections_pos_eq hcs h0] at h
    have h1 : i ≤ (tp - 1) / cs := by omega
    have h2 : i * cs ≤ (tp - 1) / cs * cs := Nat.mul_le_mul_right _ h1
    have h3 : (tp - 1) / cs * cs ≤ tp - 1 := Nat.div_mul_le_self _ _
    omega

/-- The sections cover at least `total_pages` pages. -/
theorem le_totalSections_mul {cs tp : Nat} (hcs : 0 < cs) :
    tp ≤ totalSections cs tp * cs := by
  rcases Nat.eq_zero_or_pos tp with h0 | h0
  · omega
  · rw [totalSections_pos_eq hcs h0]
    have e1 : cs * ((tp - 1) / cs) + (tp - 1) % cs = tp - 1 := Nat.div_add_mod _ _
    have e2 : (tp - 1) % cs < cs := Nat.mod_lt _ hcs
    have e3 : ((tp - 1) / cs + 1) * cs = cs * ((tp - 1) / cs) + cs := by ring
    omega

/-- The page `p` (1-indexed) lies in section number `(p - 1) / cs`
(0-indexed), and in no other. -/
theorem section_index_unique {cs p j : Nat}
    (h1 : j * cs + 1 ≤ p) (h2 : p ≤ (j + 1) * cs) : (p - 1) / cs = j :=
  Nat.div_eq_of_lt_le (by omega) (by omega)

/-- The full C1 statement: for `chunk_size > 0`, the sections computed by the
Indexer form contiguous, non-overlapping, 1-indexed ranges partitioning
`[1, total_pages]`, and the `total_pages = 25`, `chunk_size = 10` scenario
yields exactly the three ranges `[1,10]`, `[11,20]`, `[21,25]`. -/
def SectionsPartitionSpec (cs tp : Nat) : Prop :=
  (get_all_sections cs tp).length = totalSections cs tp
  ∧ (∀ s ∈ get_all_sections cs tp, s.page_start ≤ s.page_end)
  ∧ (∀ i (h : i < (get_all_sections cs tp).length),
      ((get_all_sections cs tp).get ⟨i, h⟩).section_id = i + 1)
  ∧ (∀ h : 0 < (get_all_sections cs tp).length,
      ((get_all_sections cs tp).get ⟨0, h⟩).page_start = 1)
  ∧ (∀ i (h : i + 1 < (get_all_sections cs tp).length),
      ((get_all_sections cs tp).get ⟨i + 1, h⟩).page_start
        = ((get_all_sections cs tp).get ⟨i, by omega⟩).page_end + 1)
  ∧ (∀ h : 0 < (get_all_sections cs tp).length,
      ((get_all_sections cs tp).get
        ⟨(get_all_sections cs tp).length - 1, by omega⟩).page_end = tp)
  ∧ (∀ p, (1 ≤ p ∧ p ≤ tp) ↔
      ∃ s ∈ get_all_sections cs tp, s.page_start ≤ p ∧ p ≤ s.page_end)
  ∧ (∀ p s t, s ∈ get_all_sections cs tp → t ∈ get_all_sections cs tp →
      s.page_start ≤ p → p ≤ s.page_end → t.page_start ≤ p → p ≤ t.page_end →
      s = t)
  ∧ get_all_sections 10 25 =
      [⟨1, 1, 10⟩, ⟨2, 11, 20⟩, ⟨3, 21, 25⟩]

theorem get_all_sections_get {cs tp : Nat} (i : Nat)
    (h : i < (get_all_sections cs tp).length) :
    (get_all_sections cs tp).get ⟨i, h⟩ =
      { section_id := i + 1
        page_start := i * cs + 1
        page_end := min ((i + 1) * cs) tp } := by
  simp [get_all_sections]

theorem get_all_sections_length (cs tp : Nat) :
    (get_all_sections cs tp).length = totalSections cs tp := by
  simp [get_all_sections]

theorem mem_get_all_sections {cs tp : Nat} {s : PdfSection}
    (h : s ∈ get_all_sections cs tp) :
    ∃ i, i < totalSections cs tp ∧
      s = { section_id := i + 1
            page_start := i * cs + 1
            page_end := min ((i + 1) * cs) tp } := by
  simp only [get_all_sections, List.mem_map, List.mem_range] at h
  obtain ⟨i, hi, rfl⟩ := h
  exact ⟨i, hi, rfl⟩

/-- C1. The Indexer's sections partition `[1, total_pages]` into contiguous,
non-overlapping, 1-indexed ranges, and `total_pages = 25` with
`chunk_size = 10` yields exactly the ranges `[1,10]`, `[11,20]`, `[21,25]`. -/
theorem sections_partition (cs tp : Nat) (hcs : 0 < cs) :
    SectionsPartitionSpec cs tp := by
  have hlen := get_all_sections_length cs tp
  refine ⟨hlen, ?_, ?_, ?_, ?_, ?_, ?_, ?_, ?_⟩
  · intro s hs
    obtain ⟨i, hi, rfl⟩ := mem_get_all_sections hs
    have h1 : i * cs < tp := mul_lt_of_lt_totalSections hcs hi
    have h2 : (i + 1) * cs = i * cs + cs := by ring
    show i * cs + 1 ≤ min ((i + 1) * cs) tp
    refine le_min_iff.mpr ⟨?_, ?_⟩ <;> omega
  · intro i h
    rw [get_all_sections_get i h]
  · intro h
    rw [get_all_sections_get 0 h]
    show 0 * cs + 1 = 1
    omega
  · intro i h
    rw [get_all_sections_get (i + 1) h, get_all_sections_get i (by omega)]
    have hi1 : i + 1 < totalSections cs tp := by omega
    have h2 : (i + 1) * cs < tp := mul_lt_of_lt_totalSections hcs hi1
    show (i + 1) * cs + 1 = min ((i + 1) * cs) tp + 1
    rw [min_eq_left (le_of_lt h2)]
  · intro h
    have hts : 0 < totalSections cs tp := by omega
    have htp : 0 < tp := by
      by_contra h0
      have ht0 : tp = 0 := by omega
      rw [ht0, totalSections_zero hcs] at hts; omega
    rw [get_all_sections_get ((get_all_sections cs tp).length - 1) (by omega)]
    show min (((get_all_sections cs tp).length - 1 + 1) * cs) tp = tp
    have h1 : tp ≤ totalSections cs tp * cs := le_totalSections_mul hcs
    have h2 : (get_all_sections cs tp).length - 1 + 1 = totalSections cs tp := by omega
    rw [h2]
    exact min_eq_right h1
  · intro p
    constructor
    · rintro ⟨hp1, hp2⟩
      refine ⟨{ section_id := (p - 1) / cs + 1
                page_start := (p - 1) / cs * cs + 1
                page_end := min (((p - 1) / cs + 1) * cs) tp }, ?_, ?_, ?_⟩
      · simp only [get_all_sections, List.mem_map, List.mem_range]
        refine ⟨(p - 1) / cs, ?_, rfl⟩
        have htp : 0 < tp := by omega
        rw [totalSections_pos_eq hcs htp]
        have : (p - 1) / cs ≤ (tp - 1) / cs := Nat.div_le_div_right (by omega)
        omega
      · have : (p - 1) / cs * cs ≤ p - 1 := Nat.div_mul_le_self _ _
        simp only
        omega
      · have e1 : cs * ((p - 1) / cs) + (p - 1) % cs = p - 1 := Nat.div_add_mod _ _
        have e2 : (p - 1) % cs < cs := Nat.mod_lt _ hcs
        have e3 : ((p - 1) / cs + 1) * cs = cs * ((p - 1) / cs) + cs := by ring
        simp only [le_min_iff]
        omega
    · rintro ⟨s, hs, hs1, hs2⟩
      obtain ⟨i, hi, rfl⟩ := mem_get_all_sections hs
      dsimp only at hs1 hs2
      simp only [le_min_iff] at hs2
      omega
  · intro p s t hs ht hs1 hs2 ht1 ht2
    obtain ⟨i, hi, rfl⟩ := mem_get_all_sections hs
    obtain ⟨j, hj, rfl⟩ := mem_get_all_sections ht
    dsimp only at hs1 hs2 ht1 ht2
    simp only [le_min_iff] at hs2 ht2
    have e1 : (p - 1) / cs = i := section_index_unique hs1 hs2.1
    have e2 : (p - 1) / cs = j := section_index_unique ht1 ht2.1
    have : i = j := by omega
    subst this
    rfl
  · decide

/-- Witness for C1: `chunk_size = 10 > 0` with `total_pages = 25` satisfies
the partition property, in particular giving the three scenario ranges. -/
theorem sections_partition_witness : 0 < 10 ∧ SectionsPartitionSpec 10 25 :=
  ⟨by decide, sections_partition 10 25 (by decide)⟩

/-! ## Page Fetch Tool — `PageFetcherTool.fetch_pages` in `src/agent/graph.py`

The tool loops over the requested page numbers; each page outside
`[1, total_pages]` appends `"Page {n} out of range (1-{total_pages})"` to
`errors` and is skipped (`continue`); otherwise
`processor.extract_page_content` is called (modelled by an oracle returning
the page text and image list, or an exception message); success stores the
text, appends the page to `fetched_pages` and, when images are present,
stores them; an exception appends `"Error fetching page {n}: {e}"`.
Result dictionaries are modelled as association lists with
assign-or-replace (`upsert`) semantics.
-/

/-- The extraction collaborator: `processor.extract_page_content`, reduced to
the fields `fetch_pages` reads (`text`, and `images` when `has_images`). A
raised exception is the `Except.error` case carrying `str(e)`. -/
abbrev PageOracle := Nat → Except String (String × List Nat)

/-- Python `dict` assignment `d[k] = v`: replace in place or append. -/
def upsert {α : Type} (k : Nat) (v : α) : List (Nat × α) → List (Nat × α)
  | [] => [(k, v)]
  | (k2, v2) :: rest =>
      if k2 = k then (k, v) :: rest else (k2, v2) :: upsert k v rest

/-- Python `dict` read `d.get(k)` / `d[k]`. -/
def lookupA {α : Type} (k : Nat) : List (Nat × α) → Option α
  | [] => none
  | (k2, v) :: rest => if k2 = k then some v else lookupA k rest

theorem lookupA_upsert_self {α : Type} (k : Nat) (v : α) (l : List (Nat × α)) :
    lookupA k (upsert k v l) = some v := by
  induction l with
  | nil => simp [upsert, lookupA]
  | cons h t ih =>
      obtain ⟨k2, v2⟩ := h
      by_cases hk : k2 = k <;> simp [upsert, lookupA, hk, ih]

theorem lookupA_upsert_ne {α : Type} {k q : Nat} (hne : q ≠ k) (v : α)
    (l : List (Nat × α)) : lookupA q (upsert k v l) = lookupA q l := by
  induction l with
  | nil => simp [upsert, lookupA, Ne.symm hne]
  | cons h t ih =>
      obtain ⟨k2, v2⟩ := h
      by_cases hk : k2 = k
      · subst hk
        simp [upsert, lookupA, Ne.symm hne]
      · simp [upsert, lookupA, hk, ih]

/-- The dictionary produced by `fetch_pages`:
`{"texts": {}, "images": {}, "errors": [], "fetched_pages": []}`. -/
structure FetchResult where
  texts : List (Nat × String)
  images : List (Nat × List Nat)
  errors : List String
  fetched_pages : List Nat
deriving Repr, DecidableEq

/-- `f"Page {page_num} out of range (1-{total_pages})"`. -/
def rangeErrorMsg (p total_pages : Nat) : String :=
  "Page " ++ toString p ++ " out of range (1-" ++ toString total_pages ++ ")"

/-- `f"Error fetching page {page_num}: {str(e)}"`. -/
def fetchErrorMsg (p : Nat) (e : String) : String :=
  "Error fetching page " ++ toString p ++ ": " ++ e

/-- One iteration of the `for page_num in page_numbers` loop of
`PageFetcherTool.fetch_pages`. -/
def fetchStep (extract : PageOracle) (total_pages : Nat)
    (acc : FetchResult) (p : Nat) : FetchResult :=
  if p < 1 ∨ total_pages < p then
    { acc with errors := acc.errors ++ [rangeErrorMsg p total_pages] }
  else
    match extract p with
    | .ok (txt, imgs) =>
        let acc2 := { acc with
          texts := upsert p txt acc.texts
          fetched_pages := acc.fetched_pages ++ [p] }
        if imgs ≠ [] then { acc2 with images := upsert p imgs acc2.images }
        else acc2
    | .error e => { acc with errors := acc.errors ++ [fetchErrorMsg p e] }

/-- `PageFetcherTool.fetch_pages(pdf_path, page_numbers, metadata)` with
`total_pages = metadata.get("total_pages", 0)`. -/
def fetch_pages (extract : PageOracle) (page_numbers : List Nat)
    (total_pages : Nat) : FetchResult :=
  page_numbers.foldl (fetchStep extract total_pages)
    { texts := [], images := [], errors := [], fetched_pages := [] }

/-- A requested page ends up fetched iff it is in `[1, total_pages]` and the
extraction collaborator succeeds on it. -/
def pageSucceeds (extract : PageOracle) (total_pages p : Nat) : Bool :=
  if p < 1 ∨ total_pages < p then false else (extract p).isOk

/-- The per-page error recorded for a requested page, if any. -/
def pageError (extract : PageOracle) (total_pages p : Nat) : Option String :=
  if p < 1 ∨ total_pages < p then some (rangeErrorMsg p total_pages)
  else
    match extract p with
    | .ok _ => none
    | .error e => some (fetchErrorMsg p e)

/-- The text a successful extraction stores for a page. -/
def extractedText (extract : PageOracle) (p : Nat) : Option String :=
  match extract p with
  | .ok (txt, _) => some txt
  | .error _ => none

theorem fetchStep_fetched (extract : PageOracle) (total : Nat)
    (acc : FetchResult) (p : Nat) :
    (fetchStep extract total acc p).fetched_pages
      = acc.fetched_pages ++ (if pageSucceeds extract total p then [p] else []) := by
  unfold fetchStep pageSucceeds
  split
  · simp
  · cases hx : extract p with
    | ok pair =>
        obtain ⟨txt, imgs⟩ := pair
        by_cases himgs : imgs = [] <;> simp [himgs, Except.isOk, Except.toBool]
    | error e => simp [Except.isOk, Except.toBool]

theorem fetchStep_errors (extract : PageOracle) (total : Nat)
    (acc : FetchResult) (p : Nat) :
    (fetchStep extract total acc p).errors
      = acc.errors ++ (pageError extract total p).toList := by
  unfold fetchStep pageError
  split
  · simp
  · cases hx : extract p with
    | ok pair =>
        obtain ⟨txt, imgs⟩ := pair
        by_cases himgs : imgs = [] <;> simp [himgs]
    | error e => simp

theorem fetchStep_texts (extract : PageOracle) (total : Nat)
    (acc : FetchResult) (p q : Nat) :
    lookupA q (fetchStep extract total acc p).texts
      = if q = p ∧ pageSucceeds extract total p then extractedText extract q
        else lookupA q acc.texts := by
  unfold fetchStep pageSucceeds extractedText
  split
  · simp
  · cases hx : extract p with
    | ok pair =>
        obtain ⟨txt, imgs⟩ := pair
        by_cases hq : q = p
        · subst hq
          by_cases himgs : imgs = [] <;>
            simp [himgs, Except.isOk, Except.toBool, hx, lookupA_upsert_self]
        · by_cases himgs : imgs = [] <;>
            simp [himgs, Except.isOk, Except.toBool, hq, lookupA_upsert_ne hq]
    | error e =>
        simp [Except.isOk, Except.toBool]

theorem fetch_go_fetched (extract : PageOracle) (total : Nat)
    (ps : List Nat) (acc : FetchResult) :
    (ps.foldl (fetchStep extract total) acc).fetched_pages
      = acc.fetched_pages ++ ps.filter (pageSucceeds extract total) := by
  induction ps generalizing acc with
  | nil => simp
  | cons p rest ih =>
      simp only [List.foldl_cons, ih, fetchStep_fetched]
      by_cases hp : pageSucceeds extract total p = true <;>
        simp [List.filter_cons, hp]

theorem fetch_go_errors (extract : PageOracle) (total : Nat)
    (ps : List Nat) (acc : FetchResult) :
    (ps.foldl (fetchStep extract total) acc).errors
      = acc.errors ++ ps.filterMap (pageError extract total) := by
  induction ps generalizing acc with
  | nil => simp
  | cons p rest ih =>
      simp only [List.foldl_cons, ih, fetchStep_errors]
      cases he : pageError extract total p <;>
        simp [List.filterMap_cons, he]

theorem fetch_go_texts (extract : PageOracle) (total : Nat)
    (ps : List Nat) (acc : FetchResult) (q : Nat) :
    lookupA q (ps.foldl (fetchStep extract total) acc).texts
      = if q ∈ ps ∧ pageSucceeds extract total q then extractedText extract q
        else lookupA q acc.texts := by
  induction ps generalizing acc with
  | nil => simp
  | cons p rest ih =>
      simp only [List.foldl_cons, ih, fetchStep_texts]
      by_cases hqp : q = p
      · subst hqp
        by_cases hs : pageSucceeds extract total q = true <;>
          by_cases hqr : q ∈ rest <;> simp_all [List.mem_cons]
      · by_cases hs : pageSucceeds extract total q = true <;>
          by_cases hqr : q ∈ rest <;> simp_all [List.mem_cons]

/-- If the extractor succeeded on an in-range page, its text is stored. -/
theorem fetch_pages_texts (extract : PageOracle) (pages : List Nat)
    (total : Nat) (q : Nat) :
    lookupA q (fetch_pages extract pages total).texts
      = if q ∈ pages ∧ pageSucceeds extract total q then extractedText extract q
        else none := by
  unfold fetch_pages
  rw [fetch_go_texts]
  rfl

/-- C4. The Page Fetch Tool is best-effort and per-page: `fetched_pages`
is exactly the requested pages (in request order) that are in range and
extract successfully; `errors` collects exactly one error per failing page —
the range message for out-of-range pages, the extraction message otherwise —
and every successful page's text is stored; the page-26-of-20 scenario
produces exactly the error `"Page 26 out of range (1-20)"` and nothing
else. -/
def FetchBestEffortSpec (extract : PageOracle) (pages : List Nat)
    (total : Nat) : Prop :=
  (fetch_pages extract pages total).fetched_pages
      = pages.filter (pageSucceeds extract total)
  ∧ (fetch_pages extract pages total).errors
      = pages.filterMap (pageError extract total)
  ∧ (∀ q, q ∈ pages → pageSucceeds extract total q = true →
      lookupA q (fetch_pages extract pages total).texts = extractedText extract q)
  ∧ fetch_pages extract [26] 20
      = { texts := [], images := [],
          errors := ["Page 26 out of range (1-20)"], fetched_pages := [] }

theorem fetch_pages_best_effort (extract : PageOracle) (pages : List Nat)
    (total : Nat) : FetchBestEffortSpec extract pages total := by
  refine ⟨?_, ?_, ?_, ?_⟩
  · unfold fetch_pages
    rw [fetch_go_fetched]
    rfl
  · unfold fetch_pages
    rw [fetch_go_errors]
    rfl
  · intro q hq hs
    rw [fetch_pages_texts]
    simp [hq, hs]
  · rfl

/-- Witness for C4 (the inner implications): with an extractor that succeeds
on page 3 only, requesting `[3, 26]` against 20 pages stores page 3's
text. -/
theorem fetch_pages_best_effort_witness :
    lookupA 3 (fetch_pages
        (fun p => if p = 3 then .ok ("text3", []) else .error "boom")
        [3, 26] 20).texts
      = some "text3" := by
  have h := fetch_pages_best_effort
      (fun p => if p = 3 then .ok ("text3", []) else .error "boom") [3, 26] 20
  exact h.2.2.1 3 (by decide) (by decide)

/-! ## The fetched-pages/texts coherence invariant (C10)

`answer_generator_node` builds its combined context by evaluating
`page_texts[p]` for every `p in fetched_pages`; `combineTexts` models that
comprehension, with a missing key (Python `KeyError`) surfacing as `none`.
-/

/-- `f"[Page {p}]\n{page_texts[p]}"`. -/
def pageTag (p : Nat) (t : String) : String :=
  "[Page " ++ toString p ++ "]\n" ++ t

/-- The list comprehension
`[f"[Page {p}]\n{page_texts[p]}" for p in fetched_pages]`; a missing key
raises `KeyError`, modelled as `none`. -/
def collectTexts (texts : List (Nat × String)) : List Nat → Option (List String)
  | [] => some []
  | p :: rest =>
      match lookupA p texts, collectTexts texts rest with
      | some t, some ts => some (pageTag p t :: ts)
      | _, _ => none

/-- `"\n\n---\n\n".join(...)` over the comprehension above. -/
def combineTexts (fetched : List Nat) (texts : List (Nat × String)) :
    Option String :=
  (collectTexts texts fetched).map (String.intercalate "\n\n---\n\n")

theorem collectTexts_isSome {texts : List (Nat × String)} {l : List Nat}
    (h : ∀ p, p ∈ l → (lookupA p texts).isSome = true) :
    (collectTexts texts l).isSome = true := by
  induction l with
  | nil => rfl
  | cons p rest ih =>
      have hp := h p (by simp)
      have hrest := ih (fun q hq => h q (by simp [hq]))
      unfold collectTexts
      cases hl : lookupA p texts with
      | none => rw [hl] at hp; simp at hp
      | some t =>
          cases hc : collectTexts texts rest with
          | none => rw [hc] at hrest; simp at hrest
          | some ts => simp

/-- C10. On every fetch result, a page is in `fetched_pages` iff it has an
entry in `texts` (both equal to the requested pages that are in range and
extract successfully, in request order), so the Answer Synthesizer's
context construction `page_texts[p] for p in fetched_pages` never hits a
missing key. -/
def FetchTextsInvariantSpec (extract : PageOracle) (pages : List Nat)
    (total : Nat) : Prop :=
  (∀ q, q ∈ (fetch_pages extract pages total).fetched_pages
      ↔ (lookupA q (fetch_pages extract pages total).texts).isSome = true)
  ∧ (fetch_pages extract pages total).fetched_pages
      = pages.filter (pageSucceeds extract total)
  ∧ (combineTexts (fetch_pages extract pages total).fetched_pages
      (fetch_pages extract pages total).texts).isSome = true

theorem fetched_pages_texts_invariant (extract : PageOracle)
    (pages : List Nat) (total : Nat) :
    FetchTextsInvariantSpec extract pages total := by
  have hfetched : (fetch_pages extract pages total).fetched_pages
      = pages.filter (pageSucceeds extract total) := by
    unfold fetch_pages
    rw [fetch_go_fetched]
    rfl
  have hmem : ∀ q, q ∈ (fetch_pages extract pages total).fetched_pages
      ↔ (lookupA q (fetch_pages extract pages total).texts).isSome = true := by
    intro q
    rw [hfetched, fetch_pages_texts, List.mem_filter]
    constructor
    · rintro ⟨hq, hs⟩
      simp only [hq, hs, and_self, if_true]
      unfold pageSucceeds at hs
      unfold extractedText
      cases hx : extract q with
      | ok pair => simp
      | error e =>
          rw [hx] at hs
          by_cases hr : q < 1 ∨ total < q <;>
            simp [hr, Except.isOk, Except.toBool] at hs
    · intro hsome
      by_cases hcond : q ∈ pages ∧ pageSucceeds extract total q = true
      · exact ⟨hcond.1, hcond.2⟩
      · rw [if_neg hcond] at hsome
        simp at hsome
  refine ⟨hmem, hfetched, ?_⟩
  unfold combineTexts
  rw [Option.isSome_map']
  exact collectTexts_isSome (fun p hp => (hmem p).mp hp)

/-- Witness for C10 (inner biconditionals instantiated): with an extractor
failing on page 2, fetching `[1, 2]` of a 5-page document fetches exactly
page 1 and its combined context is defined. -/
theorem fetched_pages_texts_invariant_witness :
    (fetch_pages (fun p => if p = 2 then .error "bad page"
        else .ok ("ok", [])) [1, 2] 5).fetched_pages = [1]
    ∧ (combineTexts (fetch_pages (fun p => if p = 2 then .error "bad page"
        else .ok ("ok", [])) [1, 2] 5).fetched_pages
        (fetch_pages (fun p => if p = 2 then .error "bad page"
        else .ok ("ok", [])) [1, 2] 5).texts).isSome = true := by
  have h := fetched_pages_texts_invariant
      (fun p => if p = 2 then .error "bad page" else .ok ("ok", [])) [1, 2] 5
  exact ⟨by rw [h.2.1]; decide, h.2.2⟩

/-! ## Model Gateway retry policy — `src/llm/client.py`

`GLMClient._make_request_with_retry` loops
`for attempt in range(max_retries + 1)`; `_handle_response` raises
`RateLimitError` on status 429 and `HTTPStatusError` on any other 4xx/5xx.
A `RateLimitError` is re-raised when `attempt == max_retries`, otherwise the
loop sleeps `initial_delay * (2 ** attempt)` and retries; an
`HTTPStatusError` retries with the same backoff only when
`attempt < max_retries and status >= 500`, else re-raises. Anything else
raised by `httpx.post` (a transport error) is not caught. The `remaining`
argument below is `max_retries - attempt`. The same loop appears inline in
`generate_text_async` with `max_retries = 3` and a fixed base delay of 1.0
(there the 429 check precedes `raise_for_status`, exactly as in
`_handle_response`), so it is modelled by the same recursion. The returned
list records the backoff sleeps performed, in order.
-/

/-- The HTTP collaborator's behaviour on one call: a response with a status
code and body, or an exception raised by the transport itself. -/
inductive HttpResp where
  | status (code : Nat) (body : String)
  | transportError (msg : String)
deriving Repr, DecidableEq

/-- How a request can fail: `RateLimitError`, `httpx.HTTPStatusError`, or an
uncaught transport exception. -/
inductive GwError where
  | rateLimited (body : String)
  | httpStatus (code : Nat)
  | transport (msg : String)
deriving Repr, DecidableEq

/-- `GLMClient._handle_response`: 429 raises `RateLimitError`,
`raise_for_status` raises for any other status `≥ 400`, otherwise the body
is returned. -/
def handle_response : HttpResp → Except GwError String
  | .status c b =>
      if c = 429 then .error (.rateLimited b)
      else if 400 ≤ c then .error (.httpStatus c)
      else .ok b
  | .transportError m => .error (.transport m)

/-- Whether the retry loop retries on this response. -/
def retryable : HttpResp → Prop
  | .status c _ => c = 429 ∨ 500 ≤ c
  | .transportError _ => False

/-- The body of `_make_request_with_retry`'s loop, from the state
`(attempt, remaining = max_retries - attempt)`. -/
def retryGo (respond : Nat → HttpResp) (base : ℚ) :
    Nat → Nat → Except GwError String × List ℚ
  | attempt, remaining =>
      match respond attempt with
      | .transportError m => (.error (.transport m), [])
      | .status c b =>
          if c = 429 then
            match remaining with
            | 0 => (.error (.rateLimited b), [])
            | r + 1 =>
                let rest := retryGo respond base (attempt + 1) r
                (rest.1, base * 2 ^ attempt :: rest.2)
          else if 400 ≤ c then
            if 500 ≤ c then
              match remaining with
              | 0 => (.error (.httpStatus c), [])
              | r + 1 =>
                  let rest := retryGo respond base (attempt + 1) r
                  (rest.1, base * 2 ^ attempt :: rest.2)
            else (.error (.httpStatus c), [])
          else (.ok b, [])

/-- `GLMClient._make_request_with_retry(payload, max_retries, initial_delay)`
against a given transport behaviour. -/
def make_request_with_retry (respond : Nat → HttpResp) (max_retries : Nat)
    (base : ℚ) : Except GwError String × List ℚ :=
  retryGo respond base 0 max_retries

/-- The inline retry loop of `GLMClient.generate_text_async`:
`for attempt in range(3 + 1)` with `delay = 1.0 * (2 ** attempt)`. -/
def generate_text_async_retry (respond : Nat → HttpResp) :
    Except GwError String × List ℚ :=
  retryGo respond 1 0 3

theorem retryGo_status (respond : Nat → HttpResp) (base : ℚ)
    (attempt remaining c : Nat) (b : String)
    (h : respond attempt = .status c b) :
    retryGo respond base attempt remaining =
      if c = 429 then
        match remaining with
        | 0 => (.error (.rateLimited b), [])
        | r + 1 => ((retryGo respond base (attempt + 1) r).1,
            base * 2 ^ attempt :: (retryGo respond base (attempt + 1) r).2)
      else if 400 ≤ c then
        if 500 ≤ c then
          match remaining with
          | 0 => (.error (.httpStatus c), [])
          | r + 1 => ((retryGo respond base (attempt + 1) r).1,
              base * 2 ^ attempt :: (retryGo respond base (attempt + 1) r).2)
        else (.error (.httpStatus c), [])
      else (.ok b, []) := by
  rw [retryGo, h]

theorem retryGo_client_error (respond : Nat → HttpResp) (base : ℚ)
    (a r c : Nat) (b : String) (hresp : respond a = .status c b)
    (h400 : 400 ≤ c) (h500 : c < 500) (h429 : c ≠ 429) :
    retryGo respond base a r = (.error (.httpStatus c), []) := by
  rw [retryGo_status respond base a r c b hresp]
  rw [if_neg h429, if_pos h400, if_neg (show ¬(500 ≤ c) by omega)]

theorem retryGo_transport (respond : Nat → HttpResp) (base : ℚ)
    (a r : Nat) (m : String) (hresp : respond a = .transportError m) :
    retryGo respond base a r = (.error (.transport m), []) := by
  rw [retryGo, hresp]

theorem retryGo_success_after (respond : Nat → HttpResp) (base : ℚ)
    (b : String) :
    ∀ n a r, n ≤ r → (∀ i, i < n → retryable (respond (a + i))) →
      handle_response (respond (a + n)) = .ok b →
      retryGo respond base a r
        = (.ok b, (List.range n).map (fun i => base * 2 ^ (a + i))) := by
  intro n
  induction n with
  | zero =>
      intro a r _ _ hok
      simp only [Nat.add_zero] at hok
      cases hresp : respond a with
      | transportError m => rw [hresp] at hok; simp [handle_response] at hok
      | status c body =>
          rw [hresp] at hok
          simp only [handle_response] at hok
          rw [retryGo_status respond base a r c body hresp]
          by_cases h429 : c = 429
          · rw [if_pos h429] at hok
            exact absurd hok (by simp)
          · rw [if_neg h429] at hok
            by_cases h400 : 400 ≤ c
            · rw [if_pos h400] at hok
              exact absurd hok (by simp)
            · rw [if_neg h400] at hok
              have hbb : body = b := by
                injection hok
              subst hbb
              simp [h429, h400]
  | succ n ih =>
      intro a r hle hretry hok
      obtain ⟨r2, rfl⟩ : ∃ r2, r = r2 + 1 := ⟨r - 1, by omega⟩
      have h0 := hretry 0 (by omega)
      simp only [Nat.add_zero] at h0
      cases hresp : respond a with
      | transportError m => rw [hresp] at h0; exact absurd h0 (by simp [retryable])
      | status c body =>
          rw [hresp] at h0
          rw [retryGo_status respond base a (r2 + 1) c body hresp]
          have htail : retryGo respond base (a + 1) r2
              = (.ok b, (List.range n).map (fun i => base * 2 ^ (a + 1 + i))) := by
            refine ih (a + 1) r2 (by omega) ?_ ?_
            · intro i hi
              have := hretry (i + 1) (by omega)
              rwa [show a + (i + 1) = a + 1 + i by omega] at this
            · rwa [show a + (n + 1) = a + 1 + n by omega] at hok
          have hranges : (List.range (n + 1)).map (fun i => base * 2 ^ (a + i))
              = base * 2 ^ a
                :: (List.range n).map (fun i => base * 2 ^ (a + 1 + i)) := by
            rw [List.range_succ_eq_map, List.map_cons, List.map_map]
            refine congrArg₂ List.cons (by simp) ?_
            apply List.map_congr_left
            intro i _
            show base * 2 ^ (a + (i + 1)) = base * 2 ^ (a + 1 + i)
            rw [show a + (i + 1) = a + 1 + i from by omega]
          rcases h0 with h429 | h500
          · subst h429
            rw [if_pos rfl]
            show ((retryGo respond base (a + 1) r2).1,
                base * 2 ^ a :: (retryGo respond base (a + 1) r2).2)
              = (.ok b, (List.range (n + 1)).map (fun i => base * 2 ^ (a + i)))
            rw [htail, hranges]
          · have h429 : ¬(c = 429) := by omega
            have h400 : 400 ≤ c := by omega
            rw [if_neg h429, if_pos h400, if_pos h500]
            show ((retryGo respond base (a + 1) r2).1,
                base * 2 ^ a :: (retryGo respond base (a + 1) r2).2)
              = (.ok b, (List.range (n + 1)).map (fun i => base * 2 ^ (a + i)))
            rw [htail, hranges]

/-- Persistent 429s exhaust exactly `max_retries` backoff sleeps of
`base * 2 ^ attempt` and then surface the rate-limit error. -/
theorem retryGo_rate_limited (respond : Nat → HttpResp) (base : ℚ)
    (b : String) (h : ∀ i, respond i = .status 429 b) :
    make_request_with_retry respond 3 base
      = (.error (.rateLimited b), [base * 2 ^ 0, base * 2 ^ 1, base * 2 ^ 2]) := by
  unfold make_request_with_retry
  simp [retryGo, h 0, h 1, h 2, h 3]

/-- Persistent 5xx responses exhaust exactly `max_retries` backoff sleeps and
then surface the upstream HTTP error. -/
theorem retryGo_server_error (respond : Nat → HttpResp) (base : ℚ)
    (c : Nat) (b : String) (h500 : 500 ≤ c)
    (h : ∀ i, respond i = .status c b) :
    make_request_with_retry respond 3 base
      = (.error (.httpStatus c), [base * 2 ^ 0, base * 2 ^ 1, base * 2 ^ 2]) := by
  have h429 : ¬(c = 429) := by omega
  have h400 : 400 ≤ c := by omega
  unfold make_request_with_retry
  simp [retryGo, h 0, h 1, h 2, h 3, h429, h400, h500]

/-- C6. The Gateway retries only on 429 or 5xx, up to 3 times, sleeping
`base_delay * 2 ^ attempt` before each retry; any other failure (other 4xx,
or a transport exception) propagates immediately with no sleeps; exhausted
retries surface the rate-limit/upstream error; the async loop is the same
recursion with `max_retries = 3`, `base = 1`. -/
def GatewayRetrySpec : Prop :=
  (∀ respond base a r c b, respond a = HttpResp.status c b →
      400 ≤ c → c < 500 → c ≠ 429 →
      retryGo respond base a r = (.error (.httpStatus c), []))
  ∧ (∀ respond base a r m, respond a = HttpResp.transportError m →
      retryGo respond base a r = (.error (.transport m), []))
  ∧ (∀ respond base b, (∀ i, respond i = HttpResp.status 429 b) →
      make_request_with_retry respond 3 base
        = (.error (.rateLimited b), [base * 2 ^ 0, base * 2 ^ 1, base * 2 ^ 2]))
  ∧ (∀ respond base c b, 500 ≤ c → (∀ i, respond i = HttpResp.status c b) →
      make_request_with_retry respond 3 base
        = (.error (.httpStatus c), [base * 2 ^ 0, base * 2 ^ 1, base * 2 ^ 2]))
  ∧ (∀ respond base b n, n ≤ 3 → (∀ i, i < n → retryable (respond i)) →
      handle_response (respond n) = .ok b →
      make_request_with_retry respond 3 base
        = (.ok b, (List.range n).map (fun i => base * 2 ^ i)))
  ∧ (∀ respond, generate_text_async_retry respond = retryGo respond 1 0 3)

theorem gateway_retry_policy : GatewayRetrySpec := by
  refine ⟨retryGo_client_error, retryGo_transport, retryGo_rate_limited,
    retryGo_server_error, ?_, fun _ => rfl⟩
  intro respond base b n hn hretry hok
  have := retryGo_success_after respond base b n 0 3 hn
      (fun i hi => by simpa using hretry i hi) (by simpa using hok)
  simpa using this

/-- Witness for C6: a transport that always answers 429 exhausts the three
exponential-backoff sleeps `1, 2, 4` and raises the rate-limit error. -/
theorem gateway_retry_policy_witness :
    make_request_with_retry (fun _ => HttpResp.status 429 "limited") 3 1
      = (.error (.rateLimited "limited"),
          [(1 : ℚ) * 2 ^ 0, 1 * 2 ^ 1, 1 * 2 ^ 2]) :=
  gateway_retry_policy.2.2.1 (fun _ => HttpResp.status 429 "limited") 1
    "limited" (fun _ => rfl)

/-! ## Summary cache — `PDFQAAgent` in `src/agent/graph.py`

`_load_summaries_from_cache` returns the cached summaries only when the
stored `file_hash` equals the current document hash (a missing or unreadable
cache file is `none`). `index_pdf(force=False)` first tries the cache and,
on `if cached:` (Python truthiness — a *non-empty* list), returns it without
running the indexing graph; otherwise `summarize_sections_node` summarizes
every section (one `generate_json_async` call per section, sequential by
default; a per-section failure degrades that section's summary, so exactly
one entry per section is always produced) and `_save_summaries_to_cache`
persists the result keyed by the document hash.
-/

/-- One section summary as stored in the cache (contents are irrelevant to
cache behaviour and abstracted to an id plus payload). -/
structure SummaryData where
  section_id : Nat
  payload : String
deriving Repr, DecidableEq

/-- The JSON record written by `_save_summaries_to_cache`
(`pdf_path`/`total_sections` fields omitted: `_load_summaries_from_cache`
only reads `file_hash` and `summaries`). -/
structure CacheRecord where
  file_hash : String
  summaries : List SummaryData
deriving Repr, DecidableEq

/-- `summarize_sections_node`: summarizes each of the `total_sections`
sections via the Model Gateway. The oracle gives the summary recorded for a
section (already reflecting any degraded per-section failure). Returns the
summaries together with the list of sections for which the Gateway was
invoked. -/
def summarize_sections (oracle : Nat → SummaryData) (total_sections : Nat) :
    List SummaryData × List Nat :=
  ((List.range total_sections).map oracle, List.range total_sections)

/-- `PDFQAAgent._load_summaries_from_cache`. -/
def load_summaries_from_cache (cache : Option CacheRecord)
    (file_hash : String) : Option (List SummaryData) :=
  match cache with
  | none => none
  | some r => if r.file_hash = file_hash then some r.summaries else none

/-- `PDFQAAgent._save_summaries_to_cache`. -/
def save_summaries_to_cache (file_hash : String)
    (summaries : List SummaryData) : CacheRecord :=
  { file_hash := file_hash, summaries := summaries }

/-- `PDFQAAgent.index_pdf(force)`. Note the Python truthiness test
`if cached:` — an empty cached list does not short-circuit. -/
def index_pdf (cache : Option CacheRecord) (file_hash : String)
    (total_sections : Nat) (oracle : Nat → SummaryData) (force : Bool) :
    List SummaryData × List Nat :=
  if force = false then
    match load_summaries_from_cache cache file_hash with
    | some cached =>
        if cached ≠ [] then (cached, [])
        else summarize_sections oracle total_sections
    | none => summarize_sections oracle total_sections
  else summarize_sections oracle total_sections

/-- C7. Indexing is cache-correct: with an unchanged content hash the
persisted summaries are returned and the Model Gateway is never invoked,
while a changed hash rejects the cached record and re-indexes every
section; and every persisted record carries one summary per section (the
provenance backing the first part's hypothesis). -/
def CacheCorrectnessSpec : Prop :=
  (∀ (r : CacheRecord) (h : String) (ts : Nat) (oracle : Nat → SummaryData),
      r.file_hash = h → r.summaries.length = ts →
      index_pdf (some r) h ts oracle false = (r.summaries, []))
  ∧ (∀ (r : CacheRecord) (h : String) (ts : Nat) (oracle : Nat → SummaryData),
      r.file_hash ≠ h →
      index_pdf (some r) h ts oracle false
        = ((List.range ts).map oracle, List.range ts))
  ∧ (∀ (ts : Nat) (oracle : Nat → SummaryData),
      (summarize_sections oracle ts).1.length = ts
      ∧ (save_summaries_to_cache "h" (summarize_sections oracle ts).1).summaries.length = ts)

theorem cache_correctness : CacheCorrectnessSpec := by
  refine ⟨?_, ?_, ?_⟩
  · intro r h ts oracle hhash hlen
    unfold index_pdf load_summaries_from_cache
    simp only [if_pos rfl, hhash, if_pos]
    by_cases hne : r.summaries = []
    · have hts : ts = 0 := by rw [← hlen, hne]; rfl
      subst hts
      simp [hne, summarize_sections]
    · simp [hne]
  · intro r h ts oracle hhash
    unfold index_pdf load_summaries_from_cache
    simp [hhash, summarize_sections]
  · intro ts oracle
    exact ⟨by simp [summarize_sections], by simp [save_summaries_to_cache, summarize_sections]⟩

/-- Witness for C7: a persisted one-section record under an unchanged hash
is returned with zero Gateway invocations; under a changed hash every
section is re-summarized. -/
theorem cache_correctness_witness :
    index_pdf (some ⟨"hash1", [⟨1, "s"⟩]⟩) "hash1" 1
        (fun i => ⟨i + 1, "fresh"⟩) false = ([⟨1, "s"⟩], [])
    ∧ index_pdf (some ⟨"hash1", [⟨1, "s"⟩]⟩) "hash2" 1
        (fun i => ⟨i + 1, "fresh"⟩) false = ([⟨1, "fresh"⟩], [0]) :=
  ⟨cache_correctness.1 ⟨"hash1", [⟨1, "s"⟩]⟩ "hash1" 1 _ rfl rfl,
    by rw [cache_correctness.2.1 ⟨"hash1", [⟨1, "s"⟩]⟩ "hash2" 1 _ (by decide)]; rfl⟩

/-! ## Hand-compiled `re` searches

The source uses five regular expressions:
`r'pages?\s*(\d+)\s*[-–]\s*(\d+)'`, `r'pages?\s*([\d,\s]+)'`,
`r'page\s*(\d+)'`, `r'\b\d+\b'` (findall) and `r'\[([\d\s,]+)\]'`.
Each is compiled by hand to a deterministic scanner over `List Char`
implementing Python's leftmost-match backtracking semantics for that
specific pattern:

* `pages?` — if the next character is `s` it must be consumed (greedy; on
  failure the `s` cannot be matched by the following `\s*`/class element
  either, so no backtracking point remains);
* after a maximal `\d+` (or `\s*`) run, the following literal (`-`/`–`)
  is not a digit (not whitespace), so shrinking the greedy run can never
  help — the scanners are backtracking-free;
* for `pages?\s*([\d,\s]+)`, the greedy `\s*` eats the maximal whitespace
  prefix of the maximal `[\d,\s]` run; if that leaves the group empty the
  engine backtracks exactly one character, making the group the run's last
  (whitespace) character;
* `\b` boundaries use the ASCII word class (alphanumeric or `_`).
-/

/-- The character class `[\d,\s]` (also `[\d\s,]`). -/
def listClass (c : Char) : Bool :=
  c.isDigit || c = ',' || isPySpace c

/-- `\w` (ASCII): letters, digits, underscore. -/
def isWordChar (c : Char) : Bool :=
  c.isAlphanum || c = '_'

/-- Scanner state for `re.findall(r'\b\d+\b', s)`: outside a digit run
(tracking whether the previous character was a word character), inside a
candidate run, or inside a run that failed the leading boundary. -/
inductive NumScanSt where
  | out (prevWord : Bool)
  | run (digitsRev : List Char)
  | bad
deriving Repr, DecidableEq

def findNumsStep : NumScanSt × List (List Char) → Char → NumScanSt × List (List Char)
  | (.out prevW, accu), c =>
      if c.isDigit then
        if prevW then (.bad, accu) else (.run [c], accu)
      else (.out (isWordChar c), accu)
  | (.run ds, accu), c =>
      if c.isDigit then (.run (c :: ds), accu)
      else if isWordChar c then (.out true, accu)
      else (.out false, accu ++ [ds.reverse])
  | (.bad, accu), c =>
      if c.isDigit then (.bad, accu) else (.out (isWordChar c), accu)

/-- `re.findall(r'\b\d+\b', s)`, each match converted with `int`. -/
def findNums (cs : List Char) : List Nat :=
  let scan := cs.foldl findNumsStep (.out false, [])
  let runs :=
    match scan.1 with
    | .run ds => scan.2 ++ [ds.reverse]
    | _ => scan.2
  runs.map digitsToNat

/-- `re.search(r'\[([\d\s,]+)\]', text)`: the group of the leftmost match.
At an opening bracket the greedy group is the maximal class run; the
closing bracket must follow it (`]` is not in the class, so shrinking the
run cannot expose one). -/
def bracketSearch : List Char → Option (List Char)
  | [] => none
  | c :: rest =>
      if c = '[' then
        let run := rest.takeWhile listClass
        if run ≠ [] ∧ (rest.dropWhile listClass).head? = some ']' then some run
        else bracketSearch rest
      else bracketSearch rest

/-- The optional `s` of `pages?` (consumed greedily when present). -/
def consumeOptS : List Char → List Char
  | 's' :: rest => rest
  | rest => rest

/-- `\s*(\d+)\s*[-–]\s*(\d+)` after the literal `page` (and optional `s`). -/
def matchRangeAfterPage (rest0 : List Char) : Option (Nat × Nat) :=
  let rest1 := (consumeOptS rest0).dropWhile isPySpace
  let ds1 := rest1.takeWhile Char.isDigit
  if ds1 = [] then none
  else
    match (rest1.dropWhile Char.isDigit).dropWhile isPySpace with
    | c :: rest2 =>
        if c = '-' ∨ c = '–' then
          let ds2 := (rest2.dropWhile isPySpace).takeWhile Char.isDigit
          if ds2 = [] then none else some (digitsToNat ds1, digitsToNat ds2)
        else none
    | [] => none

/-- `\s*([\d,\s]+)` after the literal `page` (and optional `s`): the group
of the match, when the class run is non-empty. -/
def matchListAfterPage (rest0 : List Char) : Option (List Char) :=
  let rest1 := consumeOptS rest0
  let run := rest1.takeWhile listClass
  if run = [] then none
  else
    let ws := run.takeWhile isPySpace
    if ws.length = run.length then some (run.drop (run.length - 1))
    else some (run.drop ws.length)

/-- `\s*(\d+)` after the literal `page` (no optional `s` in this pattern). -/
def matchSingleAfterPage (rest0 : List Char) : Option Nat :=
  let ds := (rest0.dropWhile isPySpace).takeWhile Char.isDigit
  if ds = [] then none else some (digitsToNat ds)

/-- Tries `matchAfter` at the current position when the literal `page` sits
here; search advances one character per step (Python's leftmost-match
scan), so the recursion is structural and kernel-reducible. -/
def scanForPage {α : Type} (matchAfter : List Char → Option α) :
    List Char → Option α
  | [] => none
  | c :: rest =>
      match
        (if c = 'p' then
          match rest with
          | 'a' :: 'g' :: 'e' :: rest2 => matchAfter rest2
          | _ => none
        else none) with
      | some r => some r
      | none => scanForPage matchAfter rest

/-- `re.search(r'pages?\s*(\d+)\s*[-–]\s*(\d+)', low)`. -/
def searchPagesRange (cs : List Char) : Option (Nat × Nat) :=
  scanForPage matchRangeAfterPage cs

/-- `re.search(r'pages?\s*([\d,\s]+)', low)`. -/
def searchPagesList (cs : List Char) : Option (List Char) :=
  scanForPage matchListAfterPage cs

/-- `re.search(r'page\s*(\d+)', low)`. -/
def searchPageSingle (cs : List Char) : Option Nat :=
  scanForPage matchSingleAfterPage cs

/-! ## Error-correction page-list parsing — `parse_page_list` -/

/-- The list comprehension
`[int(n.strip()) for n in nums if n.strip().isdigit()]`. -/
def digitTokens (grp : List Char) : List Nat :=
  (grp.splitOn ',').filterMap fun t =>
    let st := pyStrip t
    if st ≠ [] ∧ st.all Char.isDigit then some (digitsToNat st) else none

/-- `parse_page_list` from `src/agent/graph.py`: a bracketed
`[\d\s,]`-group, when found, is split on commas and its digit tokens
returned (even when that yields no tokens — no fall-through); otherwise all
word-bounded numbers below 1000. -/
def parse_page_list (text : String) : List Nat :=
  match bracketSearch text.toList with
  | some grp => digitTokens grp
  | none => (findNums text.toList).filter (fun n => decide (n < 1000))

/-! ## Error-correction node and the orchestrator loop

`error_correction_node` returns the state unchanged when there is no error
(Python truthiness of the string) or the retry ceiling is reached; otherwise
it asks the Gateway for a corrected prediction. On success it parses the
response with `parse_page_list`, keeps only pages in `[1, total_pages]`
(falling back to `[1]` when nothing survives), clears the error and
increments `retry_count`; if the Gateway call raises, only `retry_count` is
incremented. `create_qa_graph` wires FETCH → (`should_correct` ?
ERROR_CORRECT : SYNTHESIZE) and ERROR_CORRECT → FETCH. The loop below runs
that cycle with per-iteration oracles; `Sum.inr` is the transition to the
SYNTHESIZE (answer-generator) node.
-/

/-- The state fields the FETCH/ERROR_CORRECT cycle reads and writes. -/
structure QState where
  predicted_pages : List Nat
  fetch_error : Option String
  retry_count : Nat
deriving Repr, DecidableEq

/-- Python truthiness of `state.get("fetch_error")`: `None` and the empty
string are falsy. -/
def truthyErr : Option String → Bool
  | none => false
  | some s => decide (s ≠ "")

/-- `[p for p in corrected_pages if 1 <= p <= total_pages]`. -/
def validatePages (total_pages : Nat) (ps : List Nat) : List Nat :=
  ps.filter (fun p => decide (1 ≤ p) && decide (p ≤ total_pages))

/-- `error_correction_node`, with the Gateway call's outcome passed in. -/
def error_correction_node (gw : Except String String) (total_pages : Nat)
    (s : QState) : QState :=
  if truthyErr s.fetch_error = false ∨ 3 ≤ s.retry_count then s
  else
    match gw with
    | .ok resp =>
        let valid := validatePages total_pages (parse_page_list resp)
        { predicted_pages := if valid ≠ [] then valid else [1]
          fetch_error := none
          retry_count := s.retry_count + 1 }
    | .error _ => { s with retry_count := s.retry_count + 1 }

/-- The conditional edge `should_correct` of `create_qa_graph`. -/
def should_correct (s : QState) : Bool :=
  truthyErr s.fetch_error && decide (s.retry_count < 3)

/-- `fetcher_node`'s effect on the error field: `"; ".join(errors)` when
errors occurred, else `None`. -/
def fetcher_sets_error (e : Option String) (s : QState) : QState :=
  { s with fetch_error := e }

/-- One FETCH followed by the conditional edge: either ERROR_CORRECT runs
and control returns to FETCH (`Sum.inl`), or the pipeline proceeds to
SYNTHESIZE (`Sum.inr`). -/
def qaStep (e : Option String) (gw : Except String String)
    (total_pages : Nat) (s : QState) : QState ⊕ QState :=
  let s1 := fetcher_sets_error e s
  if should_correct s1 then Sum.inl (error_correction_node gw total_pages s1)
  else Sum.inr s1

/-- The FETCH/ERROR_CORRECT cycle, fuelled; `some s` means the orchestrator
reached SYNTHESIZE with state `s`, `none` that the fuel ran out first. -/
def qaLoop (ferr : Nat → Option String) (gw : Nat → Except String String)
    (total_pages : Nat) : Nat → Nat → QState → Option QState
  | 0, _, _ => none
  | fuel + 1, i, s =>
      match qaStep (ferr i) (gw i) total_pages s with
      | Sum.inr sf => some sf
      | Sum.inl snext => qaLoop ferr gw total_pages fuel (i + 1) snext

theorem qaLoop_succ (ferr : Nat → Option String)
    (gw : Nat → Except String String) (total fuel i : Nat) (s : QState) :
    qaLoop ferr gw total (fuel + 1) i s =
      match qaStep (ferr i) (gw i) total s with
      | Sum.inr sf => some sf
      | Sum.inl snext => qaLoop ferr gw total fuel (i + 1) snext := rfl

theorem error_correction_increments (gw : Except String String) (total : Nat)
    (s : QState) (herr : truthyErr s.fetch_error = true)
    (hretry : s.retry_count < 3) :
    (error_correction_node gw total s).retry_count = s.retry_count + 1 := by
  unfold error_correction_node
  rw [if_neg (by simp [herr]; omega)]
  cases gw <;> rfl

theorem qaStep_correct_inl (e : Option String) (gwo : Except String String)
    (total : Nat) (s : QState) (herr : truthyErr e = true)
    (hretry : s.retry_count < 3) :
    ∃ s2, qaStep e gwo total s = Sum.inl s2
      ∧ s2.retry_count = s.retry_count + 1 := by
  have hsc : should_correct (fetcher_sets_error e s) = true := by
    unfold should_correct fetcher_sets_error
    simp [herr, hretry]
  refine ⟨error_correction_node gwo total (fetcher_sets_error e s), ?_, ?_⟩
  · unfold qaStep
    rw [if_pos hsc]
  · exact error_correction_increments gwo total (fetcher_sets_error e s) herr hretry

/-- C2. Whenever the error-correction stage is entered (non-empty error,
`retry_count < 3`) it increments `retry_count` by exactly one, whether the
Gateway call succeeds or raises; hence under persistent fetch errors the
counter reaches the ceiling 3 and the orchestrator reaches SYNTHESIZE
within four FETCH iterations. -/
def ErrorCorrectionTerminationSpec : Prop :=
  (∀ (gw : Except String String) (total : Nat) (s : QState),
      truthyErr s.fetch_error = true → s.retry_count < 3 →
      (error_correction_node gw total s).retry_count = s.retry_count + 1)
  ∧ (∀ (ferr : Nat → Option String) (gw : Nat → Except String String)
        (total : Nat) (s0 : QState),
      (∀ i, truthyErr (ferr i) = true) → s0.retry_count = 0 →
      ∃ sf, qaLoop ferr gw total 4 0 s0 = some sf ∧ sf.retry_count = 3
        ∧ truthyErr sf.fetch_error = true)

theorem error_correction_terminates : ErrorCorrectionTerminationSpec := by
  refine ⟨error_correction_increments, ?_⟩
  intro ferr gw total s0 herr h0
  obtain ⟨s1, he1, hr1⟩ := qaStep_correct_inl (ferr 0) (gw 0) total s0 (herr 0) (by omega)
  obtain ⟨s2, he2, hr2⟩ := qaStep_correct_inl (ferr 1) (gw 1) total s1 (herr 1) (by omega)
  obtain ⟨s3, he3, hr3⟩ := qaStep_correct_inl (ferr 2) (gw 2) total s2 (herr 2) (by omega)
  have hr3v : s3.retry_count = 3 := by omega
  have hstep4 : qaStep (ferr 3) (gw 3) total s3
      = Sum.inr (fetcher_sets_error (ferr 3) s3) := by
    have hsc : should_correct (fetcher_sets_error (ferr 3) s3) = false := by
      unfold should_correct fetcher_sets_error
      simp [hr3v]
    unfold qaStep
    rw [if_neg]
    simp [hsc]
  refine ⟨fetcher_sets_error (ferr 3) s3, ?_,
    by simp [fetcher_sets_error, hr3v], by simp [fetcher_sets_error, herr 3]⟩
  rw [show (4 : Nat) = 3 + 1 from rfl, qaLoop_succ, he1]
  show qaLoop ferr gw total 3 1 s1 = some (fetcher_sets_error (ferr 3) s3)
  rw [show (3 : Nat) = 2 + 1 from rfl, qaLoop_succ, he2]
  show qaLoop ferr gw total 2 2 s2 = some (fetcher_sets_error (ferr 3) s3)
  rw [show (2 : Nat) = 1 + 1 from rfl, qaLoop_succ, he3]
  show qaLoop ferr gw total 1 3 s3 = some (fetcher_sets_error (ferr 3) s3)
  rw [show (1 : Nat) = 0 + 1 from rfl, qaLoop_succ, hstep4]

/-- Witness for C2: with every fetch failing and every Gateway correction
call raising, the orchestrator still reaches SYNTHESIZE with the retry
ceiling 3. -/
theorem error_correction_terminates_witness :
    ∃ sf, qaLoop (fun _ => some "err") (fun _ => Except.error "down") 20 4 0
        ⟨[99], none, 0⟩ = some sf ∧ sf.retry_count = 3
        ∧ truthyErr sf.fetch_error = true := by
  have h : truthyErr (some "err") = true := by decide
  exact error_correction_terminates.2 (fun _ => some "err")
    (fun _ => Except.error "down") 20 ⟨[99], none, 0⟩ (fun _ => h) rfl

/-! ## C8: the claimed extraction ladder versus `parse_page_list` -/

/-- Split a character list around the first occurrence of `pat`:
`some (before, after)` with the pattern removed. -/
def splitAtPat (pat : List Char) : List Char → Option (List Char × List Char)
  | [] => if pat.isEmpty then some ([], []) else none
  | c :: rest =>
      if pat.isPrefixOf (c :: rest) then some ([], (c :: rest).drop pat.length)
      else
        match splitAtPat pat rest with
        | some (before, after) => some (c :: before, after)
        | none => none

def backtick : Char := Char.ofNat 96

def fenceMarker : List Char := [backtick, backtick, backtick]

/-- The contents of the first closed triple-backtick fence. -/
def fenceInner (cs : List Char) : Option (List Char) :=
  match splitAtPat fenceMarker cs with
  | none => none
  | some (_, afterOpen) =>
      match splitAtPat fenceMarker afterOpen with
      | none => none
      | some (inner, _) => some inner

/-- The page-list extraction ladder as C8 words it (bracketed list → fenced
list → raw numbers `< 1000`, each tier tried in order *until one yields a
non-empty set*). The middle tier is modelled from the spec — the source's
`parse_page_list` has no fenced tier — reading "fenced list" as the numbers
listed inside the first closed triple-backtick fence. -/
def parse_page_list_claimed (text : String) : List Nat :=
  let bracketed :=
    match bracketSearch text.toList with
    | some grp => digitTokens grp
    | none => []
  if bracketed ≠ [] then bracketed
  else
    let fenced :=
      match fenceInner text.toList with
      | some inner => (findNums inner).filter (fun n => decide (n < 1000))
      | none => []
    if fenced ≠ [] then fenced
    else (findNums text.toList).filter (fun n => decide (n < 1000))

/-- C8 counterexample: on `"[ ] page 5"` the source's `parse_page_list`
matches the bracketed group `" "`, obtains no digit tokens and returns `[]`
with no fall-through, so the error-correction node falls back to page 1 —
while the ladder as claimed falls through to the raw-number tier, giving
`[5]`, which survives validation against 20 pages. -/
theorem parse_page_list_ladder_counterexample :
    parse_page_list "[ ] page 5" = []
    ∧ parse_page_list_claimed "[ ] page 5" = [5]
    ∧ validatePages 20 [5] = [5]
    ∧ (error_correction_node (.ok "[ ] page 5") 20
        ⟨[2, 3], some "err", 0⟩).predicted_pages = [1] := by
  decide

/-- C8 amended: the corrected page list is parsed by bracketed list →
word-bounded raw numbers `< 1000` (there is no fenced tier, and a matched
bracket group is final even when it yields no tokens); every candidate is
validated against `[1, total_pages]`, an emptied list falls back to `[1]`,
and on Gateway success the prior error is cleared and the retry counter
incremented, leaving a non-empty prediction that is in range or exactly
`[1]`. -/
def ErrorCorrectionParseSpec : Prop :=
  (∀ (t : String) (grp : List Char), bracketSearch t.toList = some grp →
      parse_page_list t = digitTokens grp)
  ∧ (∀ t : String, bracketSearch t.toList = none →
      parse_page_list t = (findNums t.toList).filter (fun n => decide (n < 1000)))
  ∧ (∀ (resp : String) (total : Nat) (s : QState),
      truthyErr s.fetch_error = true → s.retry_count < 3 →
      error_correction_node (.ok resp) total s
        = { predicted_pages :=
              if validatePages total (parse_page_list resp) ≠ []
              then validatePages total (parse_page_list resp) else [1]
            fetch_error := none
            retry_count := s.retry_count + 1 })
  ∧ (∀ (resp : String) (total : Nat) (s : QState),
      truthyErr s.fetch_error = true → s.retry_count < 3 →
      (error_correction_node (.ok resp) total s).predicted_pages ≠ []
      ∧ ((error_correction_node (.ok resp) total s).predicted_pages = [1]
        ∨ ∀ p ∈ (error_correction_node (.ok resp) total s).predicted_pages,
            1 ≤ p ∧ p ≤ total))

theorem error_correction_parse : ErrorCorrectionParseSpec := by
  have h3 : ∀ (resp : String) (total : Nat) (s : QState),
      truthyErr s.fetch_error = true → s.retry_count < 3 →
      error_correction_node (.ok resp) total s
        = { predicted_pages :=
              if validatePages total (parse_page_list resp) ≠ []
              then validatePages total (parse_page_list resp) else [1]
            fetch_error := none
            retry_count := s.retry_count + 1 } := by
    intro resp total s herr hr
    unfold error_correction_node
    rw [if_neg (by simp [herr]; omega)]
  refine ⟨?_, ?_, h3, ?_⟩
  · intro t grp h
    unfold parse_page_list
    rw [h]
  · intro t h
    unfold parse_page_list
    rw [h]
  · intro resp total s herr hr
    rw [h3 resp total s herr hr]
    by_cases hv : validatePages total (parse_page_list resp) = []
    · simp [hv]
    · constructor
      · simp [hv]
      · right
        intro p hp
        simp only [hv, ne_eq, not_false_iff, if_true] at hp
        unfold validatePages at hp
        rw [List.mem_filter] at hp
        have := hp.2
        simp at this
        exact this

/-- Witness for C8's amended claim: response `"[4, 5]"` against 20 pages
corrects the prediction to `[4, 5]`, clears the error and bumps the retry
counter from 1 to 2. -/
theorem error_correction_parse_witness :
    error_correction_node (.ok "[4, 5]") 20 ⟨[9], some "boom", 1⟩
      = ⟨[4, 5], none, 2⟩ := by
  have h := error_correction_parse.2.2.1 "[4, 5]" 20 ⟨[9], some "boom", 1⟩
    (by decide) (by decide)
  rw [h]
  decide

/-! ## Router page extraction — `router_node` in `src/agent/graph.py`

The node lowercases the model's response, then runs an `if/elif/elif` chain
keyed on which regex *matches* (range → list → single), converts the first
matching tier to a candidate list, filters it to `[1, total_pages]`, falls
back to deduplicated in-range word-bounded numbers from the whole (original
case) response when that is empty, then to the first chunk's range, and
finally truncates to 20 pages with confidence `0.8`; if the Gateway call
raises, the prediction is the first chunk's range with confidence `0.1`.
-/

/-- The `list_match` branch: `page_list = group.replace(' ', ',')` followed
by the digit-token comprehension. -/
def routerListPages (grp : List Char) : List Nat :=
  digitTokens (grp.map fun c => if c = ' ' then ',' else c)

/-- The candidate pages of the first matching tier (the `if range_match /
elif list_match / elif single_match` chain). -/
def routerTierPages (low : List Char) : List Nat :=
  match searchPagesRange low with
  | some (s, e) => pyRange s (e + 1)
  | none =>
      match searchPagesList low with
      | some grp => routerListPages grp
      | none =>
          match searchPageSingle low with
          | some n => [n]
          | none => []

/-- The dedup-preserving in-range fallback:
`for num in numbers: if 1 <= n <= total_pages and n not in predicted_pages:
predicted_pages.append(n)`, starting from the empty list. -/
def dedupInRange (total_pages : Nat) (nums : List Nat) : List Nat :=
  nums.foldl
    (fun accu n =>
      if 1 ≤ n ∧ n ≤ total_pages ∧ n ∉ accu then accu ++ [n] else accu) []

/-- `list(range(1, min(chunk_size + 1, total_pages + 1)))`. -/
def firstChunkPages (chunk_size total_pages : Nat) : List Nat :=
  pyRange 1 (min (chunk_size + 1) (total_pages + 1))

/-- `predicted_pages` after the in-range validation. -/
def routerValidated (resp : String) (total_pages : Nat) : List Nat :=
  validatePages total_pages (routerTierPages (pyLower resp.toList))

/-- `predicted_pages` after the `if not predicted_pages:` number fallback
(run on the original, non-lowered response). -/
def routerAfterNums (resp : String) (total_pages : Nat) : List Nat :=
  if routerValidated resp total_pages = []
  then dedupInRange total_pages (findNums resp.toList)
  else routerValidated resp total_pages

/-- `predicted_pages` after the first-chunk fallback. -/
def routerFinal (resp : String) (chunk_size total_pages : Nat) : List Nat :=
  if routerAfterNums resp total_pages = []
  then firstChunkPages chunk_size total_pages
  else routerAfterNums resp total_pages

/-- The pages stored by `router_node` on a successful Gateway call:
`predicted_pages[:20]`. -/
def router_extract (resp : String) (chunk_size total_pages : Nat) : List Nat :=
  (routerFinal resp chunk_size total_pages).take 20

/-- `router_node`: confidence `0.8` on a successful call, first-chunk pages
with confidence `0.1` when the Gateway call raises. -/
def router_node (gw : Except String String) (chunk_size total_pages : Nat) :
    List Nat × ℚ :=
  match gw with
  | .ok resp => (router_extract resp chunk_size total_pages, 8 / 10)
  | .error _ => (firstChunkPages chunk_size total_pages, 1 / 10)

/-- The Router ladder exactly as C3 words it: the tiers explicit page range,
explicit page list, single page mention, any in-range number, first
section's range, applied in order *until one yields a non-empty page set*
(each lexical tier read charitably as already validated to the page range).
Clearly-named spec-side definition, for comparison with `router_extract`. -/
def routerLadderClaim (resp : String) (chunk_size total_pages : Nat) : List Nat :=
  let low := pyLower resp.toList
  let tier1 := validatePages total_pages
    (match searchPagesRange low with
     | some (s, e) => pyRange s (e + 1)
     | none => [])
  let tier2 := validatePages total_pages
    (match searchPagesList low with
     | some grp => routerListPages grp
     | none => [])
  let tier3 := validatePages total_pages
    (match searchPageSingle low with
     | some n => [n]
     | none => [])
  let tier4 := dedupInRange total_pages (findNums resp.toList)
  let tier5 := firstChunkPages chunk_size total_pages
  (if tier1 ≠ [] then tier1
   else if tier2 ≠ [] then tier2
   else if tier3 ≠ [] then tier3
   else if tier4 ≠ [] then tier4
   else tier5).take 20

/-- C3 counterexample: on `"Decision: Pages 10-9"` (an inverted range, 20
pages) the range regex matches but yields the empty range, and the code —
keyed on regex *match*, not on a non-empty page set — skips the list/single
tiers and falls to the raw-number fallback, predicting `[10, 9]`; the
ladder as claimed would instead move to the explicit-list tier and predict
`[10]`. -/
theorem router_ladder_counterexample :
    router_extract "Decision: Pages 10-9" 10 20 = [10, 9]
    ∧ routerLadderClaim "Decision: Pages 10-9" 10 20 = [10]
    ∧ router_node (.ok "Decision: Pages 10-9") 10 20 = ([10, 9], 8 / 10) := by
  refine ⟨by decide, by decide, ?_⟩
  show (router_extract "Decision: Pages 10-9" 10 20, (8 : ℚ) / 10)
    = ([10, 9], 8 / 10)
  rw [show router_extract "Decision: Pages 10-9" 10 20 = [10, 9] from by decide]

/-- The ladder as amended by the counterexample: the first *matching*
pattern (range, then list, then single) supplies the candidates, which are
then validated; only if validation leaves nothing do the in-range-number
and first-chunk fallbacks apply. -/
def routerLadderAmended (resp : String) (chunk_size total_pages : Nat) : List Nat :=
  let low := pyLower resp.toList
  let chosen :=
    if (searchPagesRange low).isSome then
      match searchPagesRange low with
      | some (s, e) => pyRange s (e + 1)
      | none => []
    else if (searchPagesList low).isSome then
      match searchPagesList low with
      | some grp => routerListPages grp
      | none => []
    else
      match searchPageSingle low with
      | some n => [n]
      | none => []
  let vd := validatePages total_pages chosen
  let t4 := if vd = [] then dedupInRange total_pages (findNums resp.toList) else vd
  (if t4 = [] then firstChunkPages chunk_size total_pages else t4).take 20

theorem mem_validatePages {total p : Nat} {ps : List Nat}
    (h : p ∈ validatePages total ps) : 1 ≤ p ∧ p ≤ total := by
  unfold validatePages at h
  rw [List.mem_filter] at h
  have := h.2
  simp at this
  exact this

theorem mem_dedupInRange {total p : Nat} {nums : List Nat}
    (h : p ∈ dedupInRange total nums) : 1 ≤ p ∧ p ≤ total := by
  unfold dedupInRange at h
  suffices haux : ∀ (ns accu : List Nat), (∀ q ∈ accu, 1 ≤ q ∧ q ≤ total) →
      ∀ q ∈ ns.foldl (fun accu n =>
        if 1 ≤ n ∧ n ≤ total ∧ n ∉ accu then accu ++ [n] else accu) accu,
      1 ≤ q ∧ q ≤ total by
    exact haux nums [] (by simp) p h
  intro ns
  induction ns with
  | nil => intro accu hacc q hq; exact hacc q hq
  | cons n rest ih =>
      intro accu hacc q hq
      simp only [List.foldl_cons] at hq
      by_cases hc : 1 ≤ n ∧ n ≤ total ∧ n ∉ accu
      · rw [if_pos hc] at hq
        refine ih _ ?_ q hq
        intro r hr
        rcases List.mem_append.mp hr with h2 | h2
        · exact hacc r h2
        · simp at h2; subst h2; exact ⟨hc.1, hc.2.1⟩
      · rw [if_neg hc] at hq
        exact ih _ hacc q hq

theorem mem_firstChunkPages {cs tp p : Nat} (h : p ∈ firstChunkPages cs tp) :
    1 ≤ p ∧ p ≤ tp := by
  unfold firstChunkPages pyRange at h
  rw [List.mem_range'_1] at h
  have h1 : min (cs + 1) (tp + 1) ≤ tp + 1 := Nat.min_le_right _ _
  have h2 : 1 ≤ min (cs + 1) (tp + 1) := le_min (by omega) (by omega)
  omega

/-- C3 amended: the Router's page set comes from the first matching pattern,
validated, with the in-range-number and first-chunk fallbacks; it always has
at most 20 pages, all within `[1, total_pages]`; a Gateway failure yields
the first chunk with confidence `0.1`, a success confidence `0.8`; the
`"Decision: Pages 9-10"` scenario gives `([9, 10], 0.8)` and a cue-free
response over 25 pages falls back to the first chunk `[1..10]`. -/
def RouterExtractionSpec : Prop :=
  (∀ (resp : String) (cs tp : Nat),
      router_extract resp cs tp = routerLadderAmended resp cs tp)
  ∧ router_node (.ok "Decision: Pages 9-10") 10 20 = ([9, 10], 8 / 10)
  ∧ (∀ (e : String) (cs tp : Nat),
      router_node (.error e) cs tp = (firstChunkPages cs tp, 1 / 10))
  ∧ (∀ (resp : String) (cs tp : Nat), (router_extract resp cs tp).length ≤ 20)
  ∧ (∀ (resp : String) (cs tp p : Nat),
      p ∈ router_extract resp cs tp → 1 ≤ p ∧ p ≤ tp)
  ∧ router_extract "no relevant cue" 10 25 = [1, 2, 3, 4, 5, 6, 7, 8, 9, 10]

theorem router_extraction : RouterExtractionSpec := by
  refine ⟨?_, ?_, fun e cs tp => rfl, ?_, ?_, by decide⟩
  · intro resp cs tp
    simp only [router_extract, routerFinal, routerAfterNums, routerValidated,
      routerTierPages, routerLadderAmended]
    cases h1 : searchPagesRange (pyLower resp.toList) with
    | some r => obtain ⟨a, b⟩ := r; simp
    | none =>
        cases h2 : searchPagesList (pyLower resp.toList) with
        | some g => simp
        | none =>
            cases h3 : searchPageSingle (pyLower resp.toList) <;> simp
  · show (router_extract "Decision: Pages 9-10" 10 20, (8 : ℚ) / 10)
      = ([9, 10], 8 / 10)
    rw [show router_extract "Decision: Pages 9-10" 10 20 = [9, 10] from by decide]
  · intro resp cs tp
    unfold router_extract
    rw [List.length_take]
    exact Nat.min_le_left _ _
  · intro resp cs tp p hp
    have hp2 : p ∈ routerFinal resp cs tp := List.take_subset _ _ hp
    unfold routerFinal at hp2
    by_cases hA : routerAfterNums resp tp = []
    · rw [if_pos hA] at hp2
      exact mem_firstChunkPages hp2
    · rw [if_neg hA] at hp2
      unfold routerAfterNums at hp2
      by_cases hV : routerValidated resp tp = []
      · rw [if_pos hV] at hp2
        exact mem_dedupInRange hp2
      · rw [if_neg hV] at hp2
        unfold routerValidated at hp2
        exact mem_validatePages hp2

/-- Witness for C3's amended claim (inner implications instantiated): the
scenario response is in range and within the 20-page cap. -/
theorem router_extraction_witness :
    (router_extract "Decision: Pages 9-10" 10 20).length ≤ 20
    ∧ (9 ∈ router_extract "Decision: Pages 9-10" 10 20 → 1 ≤ 9 ∧ 9 ≤ 20) :=
  ⟨router_extraction.2.2.2.1 "Decision: Pages 9-10" 10 20,
    fun h => router_extraction.2.2.2.2.1 "Decision: Pages 9-10" 10 20 9 h⟩

/-! ## A model of Python's `json.loads` — for `safe_parse_json`

`json.loads` can return any JSON value (not only objects). The parser below
is fuel-based (each call is passed one unit less, so the recursion is
structural and kernel-reducible); the fuel `4 * length + 4` dominates the
number of parser steps for any input Python's recursion limit would accept,
so it is never exhausted on inputs of interest. Python specifics kept:
surrounding whitespace is allowed, trailing non-whitespace is an error,
leading zeros are rejected, `NaN`/`Infinity`/`-Infinity` are accepted, and
non-integer numerals are kept verbatim (`jdec`) since no claim computes
with them.
-/

inductive JValue where
  | jnull
  | jbool (b : Bool)
  | jnum (n : Int)
  | jdec (lit : String)
  | jstr (s : String)
  | jarr (elems : List JValue)
  | jobj (fields : List (String × JValue))
deriving Repr

/-- `{` (written via its code point to keep it out of string literals). -/
def lbrace : Char := Char.ofNat 123

/-- `}`. -/
def rbrace : Char := Char.ofNat 125

/-- JSON whitespace. -/
def isJsonWs (c : Char) : Bool :=
  c = ' ' || c = '\t' || c = '\n' || c = '\r'

def skipJsonWs (cs : List Char) : List Char :=
  cs.dropWhile isJsonWs

def hexDigit (c : Char) : Option Nat :=
  if c.isDigit then some (c.toNat - 48)
  else if 'a' ≤ c ∧ c ≤ 'f' then some (c.toNat - 87)
  else if 'A' ≤ c ∧ c ≤ 'F' then some (c.toNat - 55)
  else none

/-- JSON string body after the opening quote; fuel-based. -/
def parseJStringGo : Nat → List Char → List Char → Option (String × List Char)
  | 0, _, _ => none
  | fuel + 1, accu, cs =>
      match cs with
      | [] => none
      | c :: rest =>
          if c = '"' then some (String.mk accu.reverse, rest)
          else if c = '\\' then
            match rest with
            | [] => none
            | e :: rest2 =>
                if e = '"' then parseJStringGo fuel ('"' :: accu) rest2
                else if e = '\\' then parseJStringGo fuel ('\\' :: accu) rest2
                else if e = '/' then parseJStringGo fuel ('/' :: accu) rest2
                else if e = 'n' then parseJStringGo fuel ('\n' :: accu) rest2
                else if e = 't' then parseJStringGo fuel ('\t' :: accu) rest2
                else if e = 'r' then parseJStringGo fuel ('\r' :: accu) rest2
                else if e = 'b' then parseJStringGo fuel (Char.ofNat 8 :: accu) rest2
                else if e = 'f' then parseJStringGo fuel (Char.ofNat 12 :: accu) rest2
                else if e = 'u' then
                  match rest2 with
                  | h1 :: h2 :: h3 :: h4 :: rest3 =>
                      match hexDigit h1, hexDigit h2, hexDigit h3, hexDigit h4 with
                      | some d1, some d2, some d3, some d4 =>
                          parseJStringGo fuel
                            (Char.ofNat (((d1 * 16 + d2) * 16 + d3) * 16 + d4) :: accu)
                            rest3
                      | _, _, _, _ => none
                  | _ => none
                else none
          else parseJStringGo fuel (c :: accu) rest

/-- Exponent part (and packaging) of a numeral whose mantissa is `lit`. -/
def parseJExp (lit : List Char) (isDec : Bool) (rest : List Char) :
    Option (JValue × List Char) :=
  let finish : Option (JValue × List Char) :=
    if isDec then some (.jdec (String.mk lit), rest)
    else some (.jnum (Int.ofNat (digitsToNat lit)), rest)
  match rest with
  | e :: r =>
      if e = 'e' ∨ e = 'E' then
        let sgn : List Char × List Char :=
          match r with
          | '+' :: rr => (['+'], rr)
          | '-' :: rr => (['-'], rr)
          | _ => ([], r)
        let eds := sgn.2.takeWhile Char.isDigit
        if eds = [] then none
        else some (.jdec (String.mk (lit ++ e :: (sgn.1 ++ eds))), sgn.2.drop eds.length)
      else finish
  | [] => finish

/-- An unsigned JSON numeral (leading-zero rule of the JSON grammar). -/
def parseJNumberCore (cs : List Char) : Option (JValue × List Char) :=
  match cs with
  | [] => none
  | c :: _ =>
      if c.isDigit = false then none
      else
        let intDigits := if c = '0' then ['0'] else cs.takeWhile Char.isDigit
        let rest1 := cs.drop intDigits.length
        match rest1 with
        | '.' :: r =>
            let fds := r.takeWhile Char.isDigit
            if fds = [] then none
            else parseJExp (intDigits ++ '.' :: fds) true (r.drop fds.length)
        | _ => parseJExp intDigits false rest1

def negateJNum : JValue → JValue
  | .jnum n => .jnum (-n)
  | .jdec lit => .jdec ("-" ++ lit)
  | v => v

/-- A possibly signed JSON numeral (`-Infinity` included, as in Python). -/
def parseJNumber (cs : List Char) : Option (JValue × List Char) :=
  match cs with
  | '-' :: rest =>
      match rest with
      | 'I' :: 'n' :: 'f' :: 'i' :: 'n' :: 'i' :: 't' :: 'y' :: r =>
          some (.jdec "-Infinity", r)
      | _ => (parseJNumberCore rest).map (fun pr => (negateJNum pr.1, pr.2))
  | _ => parseJNumberCore cs

/-- Parser mode: a value, the tail of an array, or the tail of an object. -/
inductive JMode where
  | val
  | arrElems (accu : List JValue)
  | objFields (accu : List (String × JValue))

/-- The recursive JSON parser (single function so the fuel recursion stays
structural). In `arrElems`/`objFields` the opening bracket and any first
element separator have been consumed. -/
def parseJ : Nat → JMode → List Char → Option (JValue × List Char)
  | 0, _, _ => none
  | fuel + 1, .val, cs =>
      (match skipJsonWs cs with
      | [] => none
      | c :: rest =>
          if c = 'n' then
            match rest with
            | 'u' :: 'l' :: 'l' :: r => some (.jnull, r)
            | _ => none
          else if c = 't' then
            match rest with
            | 'r' :: 'u' :: 'e' :: r => some (.jbool true, r)
            | _ => none
          else if c = 'f' then
            match rest with
            | 'a' :: 'l' :: 's' :: 'e' :: r => some (.jbool false, r)
            | _ => none
          else if c = 'N' then
            match rest with
            | 'a' :: 'N' :: r => some (.jdec "NaN", r)
            | _ => none
          else if c = 'I' then
            match rest with
            | 'n' :: 'f' :: 'i' :: 'n' :: 'i' :: 't' :: 'y' :: r =>
                some (.jdec "Infinity", r)
            | _ => none
          else if c = '"' then
            (parseJStringGo (rest.length + 1) [] rest).map
              (fun pr => (.jstr pr.1, pr.2))
          else if c = '[' then
            match skipJsonWs rest with
            | ']' :: r => some (.jarr [], r)
            | _ => parseJ fuel (.arrElems []) rest
          else if c = lbrace then
            match skipJsonWs rest with
            | c2 :: r => if c2 = rbrace then some (.jobj [], r)
                else parseJ fuel (.objFields []) rest
            | [] => none
          else parseJNumber (c :: rest))
  | fuel + 1, .arrElems accu, cs =>
      (match parseJ fuel .val cs with
      | none => none
      | some (v, rest) =>
          match skipJsonWs rest with
          | ',' :: r => parseJ fuel (.arrElems (v :: accu)) r
          | ']' :: r => some (.jarr (v :: accu).reverse, r)
          | _ => none)
  | fuel + 1, .objFields accu, cs =>
      (match skipJsonWs cs with
      | '"' :: r =>
          match parseJStringGo (r.length + 1) [] r with
          | none => none
          | some (key, rest) =>
              match skipJsonWs rest with
              | ':' :: r2 =>
                  match parseJ fuel .val r2 with
                  | none => none
                  | some (v, rest2) =>
                      match skipJsonWs rest2 with
                      | ',' :: r3 => parseJ fuel (.objFields ((key, v) :: accu)) r3
                      | c3 :: r3 =>
                          if c3 = rbrace then
                            some (.jobj ((key, v) :: accu).reverse, r3)
                          else none
                      | [] => none
              | _ => none
      | _ => none)

/-- `json.loads` on a character list: parse one value, then require only
whitespace to remain (else Python raises "Extra data"). -/
def jloadsL (cs : List Char) : Option JValue :=
  match parseJ (4 * cs.length + 4) .val cs with
  | some (v, rest) => if skipJsonWs rest = [] then some v else none
  | none => none

/-- `json.loads`. -/
def jloads (s : String) : Option JValue :=
  jloadsL s.toList

/-! ## Response Normalizer — `safe_parse_json` in `src/llm/schemas.py`

Control flow of the source: empty/whitespace input short-circuits to an
"Empty response" mapping; then (1) `json.loads` on the whole text; (2) a
loop over the patterns ```` ```json\s*(.*?)\s*``` ````,
```` ```\s*(.*?)\s*``` ```` and `\{.*\}` (DOTALL), each match parsed after
`.strip()` and a parse failure moving to the next pattern; (3) the
substring from the first `{` to the last `}` parsed directly; (4) the
"Failed to parse LLM response" sentinel. For the lazy fenced patterns the
greedy `\s*`s around the group trim the surrounding whitespace, which
composed with the `.strip()` is a single strip; the greedy `\{.*\}` match
is exactly the first-`{`-to-last-`}` substring (when a `}` follows the
first `{`), so tiers (2c) and (3) parse the same text. -/

/-- `{"summary": ["Empty response"], "keywords": [], "insights": []}`. -/
def emptyResponseMapping : JValue :=
  .jobj [("summary", .jarr [.jstr "Empty response"]),
         ("keywords", .jarr []), ("insights", .jarr [])]

/-- `{"summary": ["Failed to parse LLM response"], "keywords": [],
"insights": []}`. -/
def parseFailedMapping : JValue :=
  .jobj [("summary", .jarr [.jstr "Failed to parse LLM response"]),
         ("keywords", .jarr []), ("insights", .jarr [])]

def jsonFenceMarker : List Char :=
  fenceMarker ++ ['j', 's', 'o', 'n']

/-- The stripped group of ```` ```json\s*(.*?)\s*``` ````. -/
def fencedJsonGroup (cs : List Char) : Option (List Char) :=
  match splitAtPat jsonFenceMarker cs with
  | none => none
  | some (_, afterOpen) =>
      match splitAtPat fenceMarker afterOpen with
      | none => none
      | some (inner, _) => some (pyStrip inner)

/-- The stripped group of ```` ```\s*(.*?)\s*``` ````. -/
def fencedGroup (cs : List Char) : Option (List Char) :=
  (fenceInner cs).map pyStrip

/-- `text[text.find('{') : text.rfind('}') + 1]` when
`find('{') >= 0 and rfind('}') > find('{')`; also the `\{.*\}` match. -/
def braceSub (cs : List Char) : Option (List Char) :=
  match splitAtPat [lbrace] cs with
  | none => none
  | some (before, _) =>
      match splitAtPat [rbrace] cs.reverse with
      | none => none
      | some (revBefore, _) =>
          let i := before.length
          let j := cs.length - 1 - revBefore.length
          if i < j then some ((cs.drop i).take (j - i + 1)) else none

/-- `safe_parse_json` from `src/llm/schemas.py`. -/
def safe_parse_json (text : String) : JValue :=
  let cs := text.toList
  if pyStrip cs = [] then emptyResponseMapping
  else
    match jloads text with
    | some v => v
    | none =>
        match (fencedJsonGroup cs).bind jloadsL with
        | some v => v
        | none =>
            match (fencedGroup cs).bind jloadsL with
            | some v => v
            | none =>
                match (braceSub cs).bind (fun g => jloadsL (pyStrip g)) with
                | some v => v
                | none =>
                    match (braceSub cs).bind jloadsL with
                    | some v => v
                    | none => parseFailedMapping

/-- Whether a JSON value is a mapping (a Python `dict`). -/
def JValue.isObj : JValue → Bool
  | .jobj _ => true
  | _ => false

/-- The first summary bullet of a result mapping, used by callers
(`generate_json_async`) to detect the sentinel. -/
def summaryHead : JValue → Option String
  | .jobj (("summary", .jarr (.jstr s :: _)) :: _) => some s
  | _ => none

/-- C5 counterexample: `safe_parse_json "3"` returns the bare JSON number
`3` — not a Mapping — because tier 1 returns whatever `json.loads`
produces; and the empty input returns the distinct "Empty response"
mapping, not the claimed parse-failure sentinel. -/
theorem safe_parse_json_counterexample :
    safe_parse_json "3" = JValue.jnum 3
    ∧ (safe_parse_json "3").isObj = false
    ∧ safe_parse_json "" = emptyResponseMapping
    ∧ summaryHead emptyResponseMapping = some "Empty response"
    ∧ summaryHead parseFailedMapping = some "Failed to parse LLM response" := by
  refine ⟨rfl, rfl, rfl, rfl, rfl⟩

/-- C5 amended: `safe_parse_json` is a total function returning a JSON
value (not necessarily a mapping): empty/whitespace input yields the
"Empty response" mapping; otherwise whole-text parse, then the fenced-block
tiers, then the first-`{`-to-last-`}` substring, and finally the
"Failed to parse LLM response" sentinel mapping, in that order. -/
def SafeParseJsonSpec : Prop :=
  (∀ t : String, pyStrip t.toList = [] → safe_parse_json t = emptyResponseMapping)
  ∧ (∀ (t : String) (v : JValue), pyStrip t.toList ≠ [] → jloads t = some v →
      safe_parse_json t = v)
  ∧ (∀ (t : String) (v : JValue), pyStrip t.toList ≠ [] → jloads t = none →
      (fencedJsonGroup t.toList).bind jloadsL = some v →
      safe_parse_json t = v)
  ∧ (∀ t : String, pyStrip t.toList ≠ [] → jloads t = none →
      (fencedJsonGroup t.toList).bind jloadsL = none →
      (fencedGroup t.toList).bind jloadsL = none →
      (braceSub t.toList).bind (fun g => jloadsL (pyStrip g)) = none →
      (braceSub t.toList).bind jloadsL = none →
      safe_parse_json t = parseFailedMapping)
  ∧ safe_parse_json "no json at all" = parseFailedMapping

theorem safe_parse_json_tiers : SafeParseJsonSpec := by
  refine ⟨?_, ?_, ?_, ?_, rfl⟩
  · intro t h
    unfold safe_parse_json
    rw [if_pos h]
  · intro t v h h1
    unfold safe_parse_json
    rw [if_neg h, h1]
  · intro t v h h1 h2
    unfold safe_parse_json
    rw [if_neg h, h1, h2]
  · intro t h h1 h2 h3 h4 h5
    unfold safe_parse_json
    rw [if_neg h, h1, h2, h3, h4, h5]

/-- Witness for C5's amended claim: on `"hello"` every tier fails and the
sentinel is returned. -/
theorem safe_parse_json_tiers_witness :
    safe_parse_json "hello" = parseFailedMapping :=
  safe_parse_json_tiers.2.2.2.1 "hello" (by decide) rfl rfl rfl rfl rfl

/-! ## Answer Synthesizer — `answer_generator_node` in `src/agent/graph.py`

The node joins the fetched page texts, then — when any page carries images —
loops over `fetched_pages`; at each page with images it calls the vision
capability inside `try`, appending the description and `break`ing on
success; on an exception it only logs and the loop *continues with the next
page that has images*. Finally the answer Gateway call either succeeds or
degrades to `f"Error generating answer: {e}"`. Both model calls are passed
in as oracles; image lists are abstracted to opaque ids. -/

/-- The state fields `answer_generator_node` reads. -/
structure SynthState where
  fetched_pages : List Nat
  page_texts : List (Nat × String)
  page_images : List (Nat × List Nat)
deriving Repr, DecidableEq

/-- The observable outcome: the answer and sources stored in the state, the
combined context sent to the model, and the pages on which the vision
capability was invoked, in order. -/
structure SynthOut where
  answer : String
  sources : List Nat
  combined : String
  vision_calls : List Nat
deriving Repr, DecidableEq

/-- `page_num in page_images and page_images[page_num]`. -/
def imagesOf (imgs : List (Nat × List Nat)) (p : Nat) : List Nat :=
  (lookupA p imgs).getD []

/-- `f"\n\n[Image Analysis from Page {p}]\n{vision_response}"`. -/
def visionTag (p : Nat) (desc : String) : String :=
  "\n\n[Image Analysis from Page " ++ toString p ++ "]\n" ++ desc

/-- The vision loop: first successful description (with its page) and the
pages on which vision was invoked. A failure does not stop the loop. -/
def visionScan (vision : Nat → Except String String)
    (imgs : List (Nat × List Nat)) : List Nat → Option (Nat × String) × List Nat
  | [] => (none, [])
  | p :: rest =>
      if imagesOf imgs p ≠ [] then
        match vision p with
        | .ok desc => (some (p, desc), [p])
        | .error _ =>
            let r := visionScan vision imgs rest
            (r.1, p :: r.2)
      else visionScan vision imgs rest

/-- `answer_generator_node`, with the vision and generation Gateway calls
passed in as oracles. The text join reuses `combineTexts`; by C10 the
`getD ""` default is never taken on pipeline states. -/
def answer_generator_node (vision : Nat → Except String String)
    (gen : Except String String) (s : SynthState) : SynthOut :=
  let combined0 := (combineTexts s.fetched_pages s.page_texts).getD ""
  let scan :=
    if s.page_images.any (fun kv => kv.2 ≠ []) then
      visionScan vision s.page_images s.fetched_pages
    else (none, [])
  let combined :=
    match scan.1 with
    | some (p, desc) => combined0 ++ visionTag p desc
    | none => combined0
  match gen with
  | .ok a => ⟨a, s.fetched_pages, combined, scan.2⟩
  | .error e => ⟨"Error generating answer: " ++ e, s.fetched_pages, combined, scan.2⟩

/-- Concrete state for the C9 counterexample: pages 1 and 2 fetched, both
carrying an image. -/
def synthCexState : SynthState :=
  ⟨[1, 2], [(1, "t1"), (2, "t2")], [(1, [7]), (2, [8])]⟩

/-- Vision oracle failing on page 1 and succeeding on page 2. -/
def synthCexVision : Nat → Except String String :=
  fun p => if p = 1 then .error "vision down" else .ok "chart description"

/-- C9 counterexample: with the first page's vision call failing, the node
invokes the vision capability *again* on page 2 (the loop `break`s only on
success), and appends page 2's description — so neither "only the first
such image is sent" nor "a vision failure ⇒ synthesis proceeds text-only"
holds. -/
theorem answer_generator_vision_counterexample :
    (answer_generator_node synthCexVision (.ok "ans") synthCexState).vision_calls
      = [1, 2]
    ∧ (answer_generator_node synthCexVision (.ok "ans") synthCexState).combined
      = (combineTexts [1, 2] [(1, "t1"), (2, "t2")]).getD ""
        ++ visionTag 2 "chart description"
    ∧ (answer_generator_node synthCexVision (.ok "ans") synthCexState).answer
      = "ans" := by
  refine ⟨rfl, rfl, rfl⟩

/-- The pages vision is tried on: the image-carrying pages in fetched
order, up to and including the first success. -/
def takeUntilOk (vision : Nat → Except String String) : List Nat → List Nat
  | [] => []
  | p :: rest => if (vision p).isOk then [p] else p :: takeUntilOk vision rest

theorem visionScan_calls (vision : Nat → Except String String)
    (imgs : List (Nat × List Nat)) (l : List Nat) :
    (visionScan vision imgs l).2
      = takeUntilOk vision (l.filter (fun p => decide (imagesOf imgs p ≠ []))) := by
  induction l with
  | nil => rfl
  | cons p rest ih =>
      unfold visionScan
      by_cases himg : imagesOf imgs p ≠ []
      · rw [if_pos himg]
        cases hv : vision p with
        | ok desc =>
            simp [List.filter_cons, himg, takeUntilOk, hv, Except.isOk, Except.toBool]
        | error e =>
            simp [List.filter_cons, himg, takeUntilOk, hv, Except.isOk, Except.toBool, ih]
      · rw [if_neg himg]
        simp [List.filter_cons, himg, ih]

theorem visionScan_all_fail (vision : Nat → Except String String)
    (imgs : List (Nat × List Nat)) (l : List Nat)
    (h : ∀ p ∈ l, (vision p).isOk = false) :
    (visionScan vision imgs l).1 = none := by
  induction l with
  | nil => rfl
  | cons p rest ih =>
      unfold visionScan
      by_cases himg : imagesOf imgs p ≠ []
      · rw [if_pos himg]
        cases hv : vision p with
        | ok desc =>
            have := h p (by simp)
            rw [hv] at this
            simp [Except.isOk, Except.toBool] at this
        | error e =>
            simp [ih fun q hq => h q (by simp [hq])]
      · rw [if_neg himg]
        exact ih fun q hq => h q (by simp [hq])

/-- C9 amended: the synthesizer never raises — a generation failure
degrades to an answer embedding the error, sources are always set — and the
vision capability is tried on the image-carrying pages in fetched order
until the *first success* (each failure is swallowed and the next page with
images is tried); only if every vision call fails does synthesis proceed
text-only. -/
def AnswerSynthesizerSpec : Prop :=
  (∀ (vision : Nat → Except String String) (gen : Except String String)
      (s : SynthState), (answer_generator_node vision gen s).sources = s.fetched_pages)
  ∧ (∀ (vision : Nat → Except String String) (e : String) (s : SynthState),
      (answer_generator_node vision (.error e) s).answer
        = "Error generating answer: " ++ e)
  ∧ (∀ (vision : Nat → Except String String) (a : String) (s : SynthState),
      (answer_generator_node vision (.ok a) s).answer = a)
  ∧ (∀ (vision : Nat → Except String String) (imgs : List (Nat × List Nat))
      (l : List Nat), (visionScan vision imgs l).2
        = takeUntilOk vision (l.filter (fun p => decide (imagesOf imgs p ≠ []))))
  ∧ (∀ (vision : Nat → Except String String) (gen : Except String String)
      (s : SynthState), (∀ p ∈ s.fetched_pages, (vision p).isOk = false) →
      (answer_generator_node vision gen s).combined
        = (combineTexts s.fetched_pages s.page_texts).getD "")

theorem answer_generator_combined (vision : Nat → Except String String)
    (gen : Except String String) (s : SynthState) :
    (answer_generator_node vision gen s).combined =
      match (if (s.page_images.any fun kv => kv.2 ≠ []) then
          visionScan vision s.page_images s.fetched_pages
        else (none, [])).1 with
      | some (p, desc) =>
          (combineTexts s.fetched_pages s.page_texts).getD "" ++ visionTag p desc
      | none => (combineTexts s.fetched_pages s.page_texts).getD "" := by
  cases gen <;> rfl

theorem answer_synthesizer : AnswerSynthesizerSpec := by
  refine ⟨?_, ?_, ?_, visionScan_calls, ?_⟩
  · intro vision gen s
    unfold answer_generator_node
    cases gen <;> rfl
  · intro vision e s
    rfl
  · intro vision a s
    rfl
  · intro vision gen s h
    have hnone := visionScan_all_fail vision s.page_images s.fetched_pages h
    rw [answer_generator_combined]
    by_cases hany : (s.page_images.any fun kv => kv.2 ≠ []) = true
    · rw [if_pos hany, hnone]
    · rw [if_neg hany]

/-- Witness for C9's amended claim: with every vision call failing and the
generation call failing too, the node still returns, embedding the error,
with a text-only context. -/
theorem answer_synthesizer_witness :
    (answer_generator_node (fun _ => .error "no vision") (.error "gw down")
        synthCexState).answer = "Error generating answer: " ++ "gw down"
    ∧ (answer_generator_node (fun _ => .error "no vision") (.error "gw down")
        synthCexState).combined
      = (combineTexts synthCexState.fetched_pages synthCexState.page_texts).getD "" := by
  have h : ∀ p ∈ synthCexState.fetched_pages,
      ((fun (_ : Nat) => (Except.error "no vision" : Except String String)) p).isOk = false :=
    fun p _ => rfl
  exact ⟨answer_synthesizer.2.1 (fun _ => .error "no vision") "gw down" synthCexState,
    answer_synthesizer.2.2.2.2 (fun _ => .error "no vision") (.error "gw down")
      synthCexState h⟩

end PDFQA
